import Mathlib

/-!
Shallow embedding of the star-catalog storage engine in
`src/celengine/stardb.cpp` (plus the parts of its interface visible from
`src/celengine/starname.cpp`), together with theorems settling the claims
about it.  Machine integers are modelled as `Nat` with explicit `% 2^32`
where 32-bit overflow matters; floating point quantities are modelled over
`ℚ`; fallible operations return `Option`.  External collaborator code
(classification lookup, orbit/rotation factories, coordinate conversion and
the linear-algebra library) is kept abstract behind an explicit environment
record, exactly at the interface boundary the specification declares as
out of scope.
-/

namespace Celestia

/-- Three-component vector of rationals, modelling `Eigen::Vector3f` values
(positions in light-years). -/
structure Vec3 where
  x : ℚ
  y : ℚ
  z : ℚ
deriving DecidableEq, Repr

instance : Inhabited Vec3 := ⟨⟨0, 0, 0⟩⟩

/-- Knowledge flag `StarDetails::KnowTexture` (bit flag; concrete value
modelled, only distinctness of the flags is used by the code). -/
def KnowTexture : Nat := 1

/-- Knowledge flag `StarDetails::KnowRotation`. -/
def KnowRotation : Nat := 2

/-- Knowledge flag `StarDetails::KnowRadius`. -/
def KnowRadius : Nat := 4

/-- Classification/physical-details record (`StarDetails`).  The C++ object
lives on the heap and may be shared between stars; sharing is modelled by
value semantics plus the `shared` flag, which is exactly the information the
copy-on-write logic in `stardb.cpp` consults.  Texture/geometry/orbit/
rotation handles are opaque (spec §1: handle management out of scope) and
modelled as `Nat`/`List Char` tokens. -/
structure StarDetails where
  spectralType : Nat
  temperature : ℚ
  bolometricCorrection : ℚ
  texture : Option (List Char)
  geometry : Option Nat
  radius : Option ℚ
  semiAxes : Option Vec3
  knowledge : Nat
  rotationModel : Option Nat
  orbit : Option Nat
  visibility : Bool
  infoURL : Option (List Char)
  shared : Bool
deriving DecidableEq, Repr

instance : Inhabited StarDetails :=
  ⟨⟨0, 0, 0, none, none, none, none, 0, none, none, true, none, true⟩⟩

/-- `StarDetails::clone`: an exclusively-owned (non-shared) copy. -/
def StarDetails.clone (d : StarDetails) : StarDetails := { d with shared := false }

/-- One catalog entry (`Star`).  `index` is the internal catalog number
(`AstroCatalog::IndexNumber`, a 32-bit unsigned integer modelled as `Nat`);
the orbit-barycenter back reference and the forward list of orbiting stars
are modelled by catalog numbers instead of raw pointers. -/
structure Star where
  index : Nat
  position : Vec3
  absMag : ℚ
  extinction : ℚ
  details : StarDetails
  orbitBarycenter : Option Nat
  orbitingStars : List Nat
deriving DecidableEq, Repr

instance : Inhabited Star :=
  ⟨⟨4294967295, default, 0, 0, default, none, []⟩⟩

/-- A freshly constructed `Star` (`new Star()` in `StarDatabase::load`):
catalog number `AstroCatalog::InvalidIndex = 0xFFFFFFFF`, no links.  The
numeric defaults of the C++ default constructor live in `star.cpp`
(outside `src/`); they are irrelevant to the claims because every field is
overwritten before a star is committed. -/
def freshStar : Star := default

/-! ## Finalized catalog-number index (`StarDatabase::buildIndexes` /
`StarDatabase::find`) -/

/-- `StarDatabase::buildIndexes`: sort (pointers to) the finalized star
array by catalog number with `std::sort` and the comparator
`star0->getIndex() < star1->getIndex()`.  `std::sort` produces some
nondecreasing reordering; it is modelled by insertion sort, which produces
the same result whenever the catalog numbers are distinct. -/
def buildIndexes (stars : List Star) : List Star :=
  stars.insertionSort (fun s0 s1 => s0.index ≤ s1.index)

/-- `StarDatabase::find(catalogNumber)`: `std::lower_bound` over the sorted
catalog-number index followed by an equality check.  On a sorted array,
`lower_bound` returns the first element whose catalog number is not less
than the target, which is what `List.find?` computes here. -/
def find (catalogNumberIndex : List Star) (catalogNumber : Nat) : Option Star :=
  match catalogNumberIndex.find? (fun s => decide (catalogNumber ≤ s.index)) with
  | some s => if s.index = catalogNumber then some s else none
  | none => none

/-! ## Byte streams -/

/-- Read exactly `n` bytes from the front of a stream
(`std::istream::read(buf, n)` followed by a `good()` check): succeeds iff at
least `n` bytes remain, returning the bytes read and the rest of the
stream. -/
def readBytes (n : Nat) (s : List Nat) : Option (List Nat × List Nat) :=
  if n ≤ s.length then some (s.take n, s.drop n) else none

/-- Value of a little-endian byte sequence (first byte least significant);
`leVal` of 2 bytes models `LE_TO_CPU_INT16`, of 4 bytes
`LE_TO_CPU_INT32`. -/
def leVal (bytes : List Nat) : Nat :=
  bytes.foldr (fun b acc => b + 256 * acc) 0

/-- ASCII bytes of the 8-byte magic string `"CELSTARS"` (`STARSDAT_MAGIC`). -/
def STARSDAT_MAGIC : List Nat := [67, 69, 76, 83, 84, 65, 82, 83]

/-- ASCII bytes of the 8-byte magic string `"CELINDEX"`
(`CROSSINDEX_MAGIC`). -/
def CROSSINDEX_MAGIC : List Nat := [67, 69, 76, 73, 78, 68, 69, 88]

/-! ## Cross-reference tables (`StarDatabase::loadCrossIndex`,
`StarDatabase::searchCrossIndexForCatalogNumber`, `StarDatabase::crossIndex`) -/

/-- One record of a cross-reference table (`StarDatabase::CrossIndexEntry`):
a foreign catalog number paired with the internal (Celestia) catalog
number. -/
structure CrossIndexEntry where
  catalogNumber : Nat
  celCatalogNumber : Nat
deriving DecidableEq, Repr

/-- Number of known external catalogs (`StarDatabase::MaxCatalog`; the
enumeration `Catalog { HenryDraper = 0, SAO = 1, MaxCatalog = 2 }` is
declared in `stardb.h`, whose values are fixed by the uses in
`stardb.cpp`). -/
def MaxCatalog : Nat := 2

/-- Catalog identity `StarDatabase::HenryDraper`. -/
def HenryDraper : Nat := 0

/-- Catalog identity `StarDatabase::SAO`. -/
def SAO : Nat := 1

/-- The per-catalog cross-index slots (`StarDatabase::crossIndexes`,
a vector of owning pointers of length `MaxCatalog`).  A slot holds `none`
when no table is loaded there (null pointer) or when the previously loaded
table has been freed: `loadCrossIndex` deletes the old table without
nulling the slot, leaving a dangling pointer in C++; since the old table's
storage is gone either way, both situations are modelled as `none`. -/
structure CrossState where
  crossIndexes : List (Option (List CrossIndexEntry))
deriving DecidableEq, Repr

/-- Decode `k` consecutive 8-byte cross-index records (two little-endian
32-bit integers each, `CrossIndexRecord`). -/
def decodeCrossIndexRecords (bytes : List Nat) : Nat → List CrossIndexEntry
  | 0 => []
  | k + 1 =>
    { catalogNumber := leVal (bytes.take 4),
      celCatalogNumber := leVal ((bytes.drop 4).take 4) }
      :: decodeCrossIndexRecords (bytes.drop 8) k

/-- Record-reading loop of `StarDatabase::loadCrossIndex`: reads the stream
in 4096-byte buffers (512 records per read) until EOF; a final partial
buffer is accepted only if it splits into whole 8-byte records, otherwise
the load fails (`unexpected EOF`).  The `fuel` argument makes the recursion
structural; the caller passes `s.length / 4096 + 1`, which is enough since
every iteration consumes 4096 bytes. -/
def loadCrossIndexLoop : Nat → List Nat → List CrossIndexEntry →
    Option (List CrossIndexEntry)
  | 0, _, _ => none
  | fuel + 1, s, acc =>
    if 4096 ≤ s.length then
      loadCrossIndexLoop fuel (s.drop 4096)
        (acc ++ decodeCrossIndexRecords (s.take 4096) 512)
    else if s.length % 8 = 0 then
      some (acc ++ decodeCrossIndexRecords s (s.length / 8))
    else
      none

/-- Sorting of a freshly loaded cross-index table
(`sort(xindex->begin(), xindex->end())` with
`CrossIndexEntry::operator<` comparing foreign catalog numbers). -/
def sortCrossIndex (entries : List CrossIndexEntry) : List CrossIndexEntry :=
  entries.insertionSort (fun e0 e1 => e0.catalogNumber ≤ e1.catalogNumber)

/-- `StarDatabase::loadCrossIndex(catalog, in)`.  Returns the success flag
together with the updated cross-index state.  Faithful to the source order
of operations: the bounds check on `catalog` comes first, then the
previously loaded table (if any) is deleted immediately — before the header
is read — and only then are the header and records parsed; on success the
new sorted table is stored. -/
def loadCrossIndex (catalog : Nat) (s : List Nat) (st : CrossState) :
    Bool × CrossState :=
  if st.crossIndexes.length ≤ catalog then (false, st)
  else
    let st := { crossIndexes := st.crossIndexes.set catalog none }
    match readBytes 10 s with
    | none => (false, st)
    | some (header, rest) =>
      if header.take 8 ≠ CROSSINDEX_MAGIC then (false, st)
      else if leVal (header.drop 8) ≠ 256 then (false, st)
      else
        match loadCrossIndexLoop (rest.length / 4096 + 1) rest [] with
        | none => (false, st)
        | some entries =>
          (true,
           { crossIndexes :=
               st.crossIndexes.set catalog (some (sortCrossIndex entries)) })

/-- `StarDatabase::searchCrossIndexForCatalogNumber(catalog, number)`:
look up the internal catalog number for a foreign number by
`std::lower_bound` over the table sorted by foreign number
(`AstroCatalog::InvalidIndex` results are modelled as `none`). -/
def searchCrossIndexForCatalogNumber (crossIndexes : List (Option (List CrossIndexEntry)))
    (catalog : Nat) (number : Nat) : Option Nat :=
  if crossIndexes.length ≤ catalog then none
  else
    match crossIndexes.getD catalog none with
    | none => none
    | some xindex =>
      match xindex.find? (fun e => decide (number ≤ e.catalogNumber)) with
      | some e => if e.catalogNumber = number then some e.celCatalogNumber else none
      | none => none

/-! ## Catalog-number string grammars (`parseSimpleCatalogNumber`,
`parseTychoCatalogNumber`, `parseCelestiaCatalogNumber`,
`catalogNumberToString`) -/

/-- ASCII lower-casing of a single character, as used by the
case-insensitive comparison in `compareIgnoringCase`
(`celutil/stringutils`). -/
def toLowerChar (c : Char) : Char :=
  if 'A' ≤ c ∧ c ≤ 'Z' then Char.ofNat (c.toNat + 32) else c

/-- `compareIgnoringCase(name, pfx, pfx.size()) == 0`: the first
`pfx.length` characters of `name` match `pfx` ignoring ASCII case (a
shorter `name` does not match). -/
def startsWithCI : List Char → List Char → Bool
  | [], _ => true
  | _ :: _, [] => false
  | p :: ps, c :: cs => (toLowerChar p == toLowerChar c) && startsWithCI ps cs

/-- Characters skipped by `find_first_not_of(" \t", pos)`. -/
def isSpaceTab (c : Char) : Bool := c == ' ' || c == '\t'

/-- Numeric value of a decimal digit character. -/
def digitVal (c : Char) : Nat := c.toNat - 48

/-- Value of a big-endian list of decimal digit characters. -/
def natOfDigitChars (ds : List Char) : Nat :=
  ds.foldl (fun acc c => acc * 10 + digitVal c) 0

/-- `celestia::compat::from_chars` into `AstroCatalog::IndexNumber`
(`std::uint32_t`): consume the longest prefix of decimal digits; fail
(`ec != std::errc{}`) when there is no digit (`invalid_argument`) or the
value does not fit in 32 bits (`result_out_of_range`); otherwise return the
value and the unconsumed rest. -/
def fromCharsU32 (s : List Char) : Option (Nat × List Char) :=
  let ds := s.takeWhile Char.isDigit
  if ds.isEmpty then none
  else if natOfDigitChars ds < 4294967296 then
    some (natOfDigitChars ds, s.dropWhile Char.isDigit)
  else none

/-- `parseSimpleCatalogNumber(name, pfx, out)`: case-insensitive literal
catalog tag, optional extra whitespace, a 32-bit unsigned integer, and no
trailing non-whitespace. -/
def parseSimpleCatalogNumber (name pfx : List Char) : Option Nat :=
  if startsWithCI pfx name then
    let after := (name.drop pfx.length).dropWhile isSpaceTab
    if after.isEmpty then none
    else
      match fromCharsU32 after with
      | some (v, rest) => if (rest.dropWhile isSpaceTab).isEmpty then some v else none
      | none => none
  else none

/-- The catalog tag `"TYC "` (`TychoCatalogPrefix`) as characters. -/
def tycTag : List Char := ['T', 'Y', 'C', ' ']

/-- The catalog tag `"HIP "` (`HIPPARCOSCatalogPrefix`) as characters. -/
def hipTag : List Char := ['H', 'I', 'P', ' ']

/-- The catalog tag `"HD "` (`HDCatalogPrefix`) as characters. -/
def hdTag : List Char := ['H', 'D', ' ']

/-- The catalog tag `"SAO "` (`SAOCatalogPrefix`) as characters. -/
def saoTag : List Char := ['S', 'A', 'O', ' ']

/-- Multiplier `TYC3_MULTIPLIER`. -/
def TYC3_MULTIPLIER : Nat := 1000000000

/-- Multiplier `TYC2_MULTIPLIER`. -/
def TYC2_MULTIPLIER : Nat := 10000

/-- `parseTychoCatalogNumber(name, out)`: parse a `TYC t1-t2-t3`
designation.  The part ranges are `1 ≤ t1 ≤ 9999` (`TYC1_MAX`),
`1 ≤ t2 ≤ 99999` (`TYC2_MAX`), `1 ≤ t3 ≤ 3` (`TYC3_MAX`) with the TDSC
exception `t3 = 4` permitted when `t1 ≤ 2907`.  The packed catalog number
`t3 * TYC3_MULTIPLIER + t2 * TYC2_MULTIPLIER + t1` is computed in
`std::uint32_t` arithmetic, hence taken modulo `2^32` (the individual
products stay below `2^32` once the range checks have passed, so a single
outer reduction is exact). -/
def parseTychoCatalogNumber (name : List Char) : Option Nat :=
  if startsWithCI tycTag name then
    let s0 := (name.drop 4).dropWhile isSpaceTab
    if s0.isEmpty then none
    else
      match fromCharsU32 s0 with
      | none => none
      | some (t1, r1) =>
        if t1 < 1 ∨ 9999 < t1 then none
        else
          match r1 with
          | [] => none
          | c1 :: r1t =>
            if c1 ≠ '-' then none
            else
              match fromCharsU32 r1t with
              | none => none
              | some (t2, r2) =>
                if t2 < 1 ∨ 99999 < t2 then none
                else
                  match r2 with
                  | [] => none
                  | c2 :: r2t =>
                    if c2 ≠ '-' then none
                    else
                      match fromCharsU32 r2t with
                      | none => none
                      | some (t3, r3) =>
                        if 1 ≤ t3 ∧ (t3 ≤ 3 ∨ (t3 = 4 ∧ t1 ≤ 2907))
                            ∧ (r3.dropWhile isSpaceTab).isEmpty then
                          some ((t3 * TYC3_MULTIPLIER + t2 * TYC2_MULTIPLIER + t1) % 4294967296)
                        else none
  else none

/-- `parseCelestiaCatalogNumber(name, out)`: a `#` immediately followed by
the internal catalog number, with no trailing non-whitespace. -/
def parseCelestiaCatalogNumber (name : List Char) : Option Nat :=
  match name with
  | [] => none
  | c :: rest =>
    if c ≠ '#' then none
    else
      match fromCharsU32 rest with
      | some (v, r) => if (r.dropWhile isSpaceTab).isEmpty then some v else none
      | none => none

/-- Digit-by-digit rendering loop (least significant digit extracted by
`% 10`, recursion on `/ 10`); the fuel argument makes the recursion
structural and any fuel at least `n` is enough. -/
def natDigitCharsAux : Nat → Nat → List Char
  | 0, _ => []
  | _, 0 => []
  | fuel + 1, n + 1 =>
    natDigitCharsAux fuel ((n + 1) / 10) ++ [Nat.digitChar ((n + 1) % 10)]

/-- Decimal digit characters of a natural number, most significant first
(the rendering used by `fmt::format("{}", n)`). -/
def natDigitChars (n : Nat) : List Char :=
  if n = 0 then ['0'] else natDigitCharsAux n n

/-- Modelled from the spec: `StarDatabase::MAX_HIPPARCOS_NUMBER` is
declared in `stardb.h`, which is not under `src/`.  The spec describes it
as the reserved HIPPARCOS-range ceiling below which display names are
formatted as `HIP n`; the in-src check `hip >= 1000000` selecting `TYC`
formatting in `StarDatabase::getStarNameList` fixes the ceiling at
999999. -/
def MAX_HIPPARCOS_NUMBER : Nat := 999999

/-- `catalogNumberToString(catalogNumber)`: `HIP n` for numbers up to
`MAX_HIPPARCOS_NUMBER`, otherwise decomposition through
`TYC3_MULTIPLIER` and `TYC2_MULTIPLIER` rendered as `TYC t1-t2-t3`. -/
def catalogNumberToString (catalogNumber : Nat) : List Char :=
  if catalogNumber ≤ MAX_HIPPARCOS_NUMBER then
    hipTag ++ natDigitChars catalogNumber
  else
    let tyc3 := catalogNumber / TYC3_MULTIPLIER
    let n2 := catalogNumber - tyc3 * TYC3_MULTIPLIER
    let tyc2 := n2 / TYC2_MULTIPLIER
    let tyc1 := n2 - tyc2 * TYC2_MULTIPLIER
    tycTag ++ natDigitChars tyc1 ++ '-' :: natDigitChars tyc2
      ++ '-' :: natDigitChars tyc3

/-- Canonical text `TYC t1-t2-t3` for three catalog-number parts, the
input form the Tycho grammar claim quantifies over. -/
def tycString (t1 t2 t3 : Nat) : List Char :=
  tycTag ++ natDigitChars t1 ++ '-' :: natDigitChars t2
    ++ '-' :: natDigitChars t3

/-- Validity of the three Tycho parts per the range checks of
`parseTychoCatalogNumber`. -/
def tycValid (t1 t2 t3 : Nat) : Prop :=
  1 ≤ t1 ∧ t1 ≤ 9999 ∧ 1 ≤ t2 ∧ t2 ≤ 99999 ∧ 1 ≤ t3 ∧
    (t3 ≤ 3 ∨ (t3 = 4 ∧ t1 ≤ 2907))

instance (t1 t2 t3 : Nat) : Decidable (tycValid t1 t2 t3) := by
  unfold tycValid; infer_instance

/-- Mathematical (unwrapped) value of the Tycho packing. -/
def tycPack (t1 t2 t3 : Nat) : Nat :=
  t3 * TYC3_MULTIPLIER + t2 * TYC2_MULTIPLIER + t1

/-! ## Textual star records and the collaborator environment -/

/-- Typed property map of one textual star definition (the `Hash` handed to
`StarDatabase::createStar`).  The spec declares the property-list parser an
external collaborator with typed accessors, so each field carries the value
already produced by the corresponding accessor (angles in the units
requested, lengths already converted from kilometers to light-years);
`none` is the accessor's explicit "missing key" result.  `OrbitBarycenter`
is read first as a string and, failing that, as a number, so it is a sum of
the two. -/
structure StarData where
  position : Option Vec3
  ra : Option ℚ
  dec : Option ℚ
  distance : Option ℚ
  absMag : Option ℚ
  appMag : Option ℚ
  extinction : Option ℚ
  spectralType : Option (List Char)
  mesh : Option (List Char)
  texture : Option (List Char)
  semiAxes : Option Vec3
  radius : Option ℚ
  temperature : Option ℚ
  bolometricCorrection : Option ℚ
  infoURL : Option (List Char)
  orbitBarycenter : Option (List Char ⊕ Nat)
deriving DecidableEq, Repr

/-- Collaborator environment: the external services `stardb.cpp` calls into
and the spec places outside its scope (spec §1, §6).  `binDetails` composes
`StellarClass::unpackV1` with `StarDetails::GetStarDetails` for a packed
binary spectral code; `decodeFloat` interprets a little-endian 32-bit float
bit pattern; `parseSpectral`/`getStarDetails` are `StellarClass::parse` and
the classification-lookup service; `createOrbit`/`createRotationModel` are
the orbit and rotation-model factories returning opaque handles;
`equatorialToCelestialCart` is `astro::equatorialToCelestialCart` applied
to float-truncated angles; `rectToSpherical` is the inverse conversion in
`StarDatabase::createStar` lines 908-920, whose numerics (rotation, norm,
`atan2`, `asin`) live in the external math library; `vecNorm` is
`Eigen::Vector3f::norm`; `appToAbsMag` is `astro::appToAbsMag`;
`computeBolometricCorrection` is the Reed (1998) formula (built on
`std::log10`/`std::pow`); `geometryHandle` is the geometry-manager handle
allocator. -/
structure Env where
  binDetails : Nat → Option StarDetails
  decodeFloat : Nat → ℚ
  parseSpectral : List Char → Nat
  getStarDetails : Nat → Option StarDetails
  barycenterDetails : StarDetails
  createOrbit : StarData → Option Nat
  createRotationModel : StarData → Option Nat
  equatorialToCelestialCart : ℚ → ℚ → ℚ → Vec3
  rectToSpherical : Vec3 → ℚ × ℚ × ℚ
  vecNorm : Vec3 → ℚ
  appToAbsMag : ℚ → ℚ → ℚ
  computeBolometricCorrection : ℚ → ℚ
  geometryHandle : List Char → Nat

/-! ## Binary catalog decoding (`StarDatabase::loadBinary`) -/

/-- Buffered record count `UINT32_C(4096) / sizeof(StarsDatRecord)`; a
`StarsDatRecord` packs to 4 + 3×4 + 2 + 2 = 20 bytes, giving 204 records
per read. -/
def STARS_BUFFER_RECORDS : Nat := 204

/-- Decode one 20-byte `StarsDatRecord`: little-endian 32-bit catalog
number at offset 0, three little-endian 32-bit floats at offsets 4/8/12,
little-endian signed 16-bit magnitude at offset 16 scaled by 1/256, and a
little-endian 16-bit packed spectral code at offset 18; a spectral code
with no classification record fails the whole load. -/
def decodeStarRecord (env : Env) (bytes : List Nat) : Option Star :=
  let catNo := leVal (bytes.take 4)
  let x := env.decodeFloat (leVal ((bytes.drop 4).take 4))
  let y := env.decodeFloat (leVal ((bytes.drop 8).take 4))
  let z := env.decodeFloat (leVal ((bytes.drop 12).take 4))
  let absMagRaw := leVal ((bytes.drop 16).take 2)
  let absMag : ℚ :=
    ((if absMagRaw < 32768 then (absMagRaw : ℤ) else (absMagRaw : ℤ) - 65536) : ℚ) / 256
  let spectralType := leVal ((bytes.drop 18).take 2)
  match env.binDetails spectralType with
  | none => none
  | some details =>
    some { index := catNo, position := ⟨x, y, z⟩, absMag := absMag,
           extinction := 0, details := details,
           orbitBarycenter := none, orbitingStars := [] }

/-- Decode `k` consecutive records from one read buffer. -/
def decodeStarChunk (env : Env) (bytes : List Nat) : Nat → Option (List Star)
  | 0 => some []
  | k + 1 =>
    match decodeStarRecord env (bytes.take 20) with
    | none => none
    | some s =>
      match decodeStarChunk env (bytes.drop 20) k with
      | none => none
      | some t => some (s :: t)

/-- Record-reading loop of `StarDatabase::loadBinary`: while records
remain, read `min(STARS_BUFFER_RECORDS, remaining)` complete records (a
short read fails the load) and decode them.  `fuel` makes the recursion
structural; the caller passes the declared record count, which suffices
because every iteration consumes at least one record, and the fuel-zero
branch can then only be reached with `remaining = 0`. -/
def loadBinaryLoop (env : Env) : Nat → List Nat → Nat → List Star → Option (List Star)
  | 0, _, remaining, acc => if remaining = 0 then some acc else none
  | fuel + 1, s, remaining, acc =>
    if remaining = 0 then some acc
    else
      let toRead := min STARS_BUFFER_RECORDS remaining
      match readBytes (20 * toRead) s with
      | none => none
      | some (chunk, rest) =>
        match decodeStarChunk env chunk toRead with
        | none => none
        | some stars => loadBinaryLoop env fuel rest (remaining - toRead) (acc ++ stars)

/-- `StarDatabase::loadBinary(in)`: read the 14-byte header (8-byte magic
`CELSTARS`, little-endian 16-bit version 0x0100, little-endian 32-bit
record count), then exactly the declared number of 20-byte records.  The
C++ returns a success flag while accumulating into the member arena; the
decoded record list is returned here, with `none` for failure (on failure
the partially decoded records are abandoned: the load is reported failed
and no index is built over them). -/
def loadBinary (env : Env) (s : List Nat) : Option (List Star) :=
  match readBytes 14 s with
  | none => none
  | some (header, rest) =>
    if header.take 8 ≠ STARSDAT_MAGIC then none
    else if leVal ((header.drop 8).take 2) ≠ 256 then none
    else
      let nStarsInFile := leVal (header.drop 10)
      loadBinaryLoop env nStarsInFile rest nStarsInFile []

/-- Record count declared in a binary catalog header. -/
def declaredStarCount (s : List Nat) : Nat := leVal ((s.drop 10).take 4)

/-- Well-formedness of a binary catalog stream as the code checks it:
a complete 14-byte header bearing the `CELSTARS` magic and version 0x0100,
followed by at least the declared number of complete 20-byte records. -/
def starsDatWellFormed (s : List Nat) : Prop :=
  14 ≤ s.length ∧ s.take 8 = STARSDAT_MAGIC ∧ leVal ((s.drop 8).take 2) = 256 ∧
    14 + 20 * declaredStarCount s ≤ s.length

instance (s : List Nat) : Decidable (starsDatWellFormed s) := by
  unfold starsDatWellFormed; infer_instance

/-- Well-formedness of a binary catalog stream as the claim words it, with
18-byte records: header plus at least the declared number of complete
18-byte records. -/
def starsDatSpecWellFormed18 (s : List Nat) : Prop :=
  14 ≤ s.length ∧ s.take 8 = STARSDAT_MAGIC ∧ leVal ((s.drop 8).take 2) = 256 ∧
    14 + 18 * declaredStarCount s ≤ s.length

instance (s : List Nat) : Decidable (starsDatSpecWellFormed18 s) := by
  unfold starsDatSpecWellFormed18; infer_instance

/-! ## Load-time state and lookups (`StarDatabase::findWhileLoading`,
`StarDatabase::findCatalogNumberByName`) -/

/-- Mutable state of a `StarDatabase` during catalog loading.  Stars live
in the stable arena `unsortedStars` (`BlockArray<Star>`); pointers into the
arena are modelled by positions.  `binFileCatalogNumberIndex` holds the
positions of the binary-loaded stars sorted by catalog number;
`stcFileCatalogNumberIndex` is the `std::map` from catalog number to arena
position for stars committed from textual files; `namesDB` is the
name-database content as (catalog number, name) records; `barycenters` is
the pending (orbiting star, barycenter) catalog-number list;
`nextAutoCatalogNumber` counts downward from a reserved high sentinel. -/
structure LoadState where
  unsortedStars : List Star
  binFileCatalogNumberIndex : List Nat
  stcFileCatalogNumberIndex : List (Nat × Nat)
  namesDB : List (Nat × List Char)
  barycenters : List (Nat × Nat)
  nextAutoCatalogNumber : Nat
  nStars : Nat
  crossIndexes : List (Option (List CrossIndexEntry))
deriving DecidableEq, Repr

/-- Star stored at an arena position. -/
def starAt (st : LoadState) (pos : Nat) : Star := st.unsortedStars.getD pos default

/-- `StarDatabase::findWhileLoading(catalogNumber)`: first a
`std::lower_bound` over the sorted binary-file index, then an exact
`std::map` lookup in the stc-file index; returns the arena position of the
star (the C++ returns the `Star*`). -/
def findWhileLoading (st : LoadState) (catalogNumber : Nat) : Option Nat :=
  let fromBin :=
    match st.binFileCatalogNumberIndex.find?
        (fun p => decide (catalogNumber ≤ (starAt st p).index)) with
    | some p => if (starAt st p).index = catalogNumber then some p else none
    | none => none
  match fromBin with
  | some p => some p
  | none =>
    match st.stcFileCatalogNumberIndex.find? (fun e => e.1 == catalogNumber) with
    | some e => some e.2
    | none => none

/-- Exact name lookup in the name database.  This is the core
`getCatalogNumberByName` call of `StarNameDatabase::findCatalogNumberByName`
(the `NameDatabase` internals are outside `src/`; the spec specifies
exact-match lookup on a normalized key).  The Bayer/Flamsteed rewriting
heuristics in `starname.cpp` only retry this same exact lookup on rewritten
candidate strings built from external constellation and Greek-letter
tables; they are not modelled, and no claim depends on which candidate
string produced the hit. -/
def nameDbFind (namesDB : List (Nat × List Char)) (name : List Char) : Option Nat :=
  match namesDB.find? (fun e => e.2 == name) with
  | some e => some e.1
  | none => none

/-- `StarDatabase::findCatalogNumberByName(name, i18n)`: the name database
first, then the catalog-number grammars in source order — `#n`, `HIP`,
`TYC`, then `HD` and `SAO` through the corresponding cross-index
(`AstroCatalog::InvalidIndex` is modelled as `none` throughout). -/
def findCatalogNumberByName (st : LoadState) (name : List Char) : Option Nat :=
  if name.isEmpty then none
  else
    match nameDbFind st.namesDB name with
    | some n => some n
    | none =>
      match parseCelestiaCatalogNumber name with
      | some n => some n
      | none =>
        match parseSimpleCatalogNumber name hipTag with
        | some n => some n
        | none =>
          match parseTychoCatalogNumber name with
          | some n => some n
          | none =>
            match parseSimpleCatalogNumber name hdTag with
            | some n => searchCrossIndexForCatalogNumber st.crossIndexes HenryDraper n
            | none =>
              match parseSimpleCatalogNumber name saoTag with
              | some n => searchCrossIndexForCatalogNumber st.crossIndexes SAO n
              | none => none

/-! ## Star creation from textual records (`StarDatabase::createStar` and
helpers) -/

/-- Disposition of a textual record (`DataDisposition`). -/
inductive DataDisposition where
  | Add
  | Replace
  | Modify
deriving DecidableEq, Repr

/-- `StarDatabase::CustomStarDetails`, as filled by
`parseCustomStarDetails`. -/
structure CustomStarDetails where
  hasCustomDetails : Bool
  modelName : Option (List Char)
  textureName : Option (List Char)
  orbit : Option Nat
  rm : Option Nat
  semiAxes : Option Vec3
  radius : Option ℚ
  temperature : ℚ
  bolometricCorrection : Option ℚ
  infoURL : Option (List Char)

/-- `parseCustomStarDetails(starData, path)`: gather the optional custom
fields; `hasCustomDetails` is true when any of them is present
(temperature counting only when positive, since a missing temperature
defaults to 0). -/
def parseCustomStarDetails (env : Env) (starData : StarData) : CustomStarDetails :=
  let modelName := starData.mesh
  let textureName := starData.texture
  let orbit := env.createOrbit starData
  let rm := env.createRotationModel starData
  let semiAxes := starData.semiAxes
  let radius := starData.radius
  let temperature := starData.temperature.getD 0
  let bolometricCorrection := starData.bolometricCorrection
  let infoURL := starData.infoURL
  { hasCustomDetails :=
      modelName.isSome || textureName.isSome || orbit.isSome || rm.isSome ||
        semiAxes.isSome || radius.isSome || decide (0 < temperature) ||
        bolometricCorrection.isSome || infoURL.isSome,
    modelName := modelName, textureName := textureName, orbit := orbit,
    rm := rm, semiAxes := semiAxes, radius := radius,
    temperature := temperature, bolometricCorrection := bolometricCorrection,
    infoURL := infoURL }

/-- `modifyStarDetails(star, referenceDetails, hasCustomDetails)`: the
copy-on-write step for `Modify` records.  A shared details record is cloned
before customization; a non-shared (already customized) record receives the
new reference data field by field, with previously acquired knowledge flags
suppressing the texture and rotation-model defaults. -/
def modifyStarDetails (star : Star) (referenceDetails : Option StarDetails)
    (hasCustomDetails : Bool) : Star :=
  let existingDetails := star.details
  if existingDetails.shared then
    if hasCustomDetails then
      { star with details :=
          (match referenceDetails with
           | none => existingDetails
           | some r => r).clone }
    else
      match referenceDetails with
      | some r => { star with details := r }
      | none => star
  else
    match referenceDetails with
    | some r =>
      { star with details :=
          { existingDetails with
            spectralType := r.spectralType,
            temperature := r.temperature,
            bolometricCorrection := r.bolometricCorrection,
            texture :=
              if existingDetails.knowledge &&& KnowTexture = 0 then r.texture
              else existingDetails.texture,
            rotationModel :=
              if existingDetails.knowledge &&& KnowRotation = 0 then r.rotationModel
              else existingDetails.rotationModel,
            visibility := r.visibility } }
    | none => star

/-- Barycenter reference resolution inside `StarDatabase::applyOrbit`:
`none` when no `OrbitBarycenter` key is present; otherwise the reference is
defined, carrying the catalog number resolved from the name (through
`findCatalogNumberByName`, which may fail) or given numerically. -/
def orbitBarycenterRef (st : LoadState) (starData : StarData) : Option (Option Nat) :=
  match starData.orbitBarycenter with
  | some (Sum.inl nm) => some (findCatalogNumberByName st nm)
  | some (Sum.inr n) => some (some n)
  | none => none

/-- `StarDatabase::applyOrbit`: attach the custom orbit, resolve an
`OrbitBarycenter` reference (by name or numerically), record the pending
(star, barycenter) pair, and look the barycenter up with
`findWhileLoading` to inherit its position.  Returns (success flag, updated
details, barycenter position, pending pairs appended to
`StarDatabase::barycenters`).  Note the source order: the pending pair is
pushed *before* the barycenter lookup can be found missing, so a failing
record still leaves its pair behind. -/
def applyOrbit (st : LoadState) (catalogNumber : Nat) (starData : StarData)
    (details : StarDetails) (custom : CustomStarDetails) :
    Bool × StarDetails × Option Vec3 × List (Nat × Nat) :=
  match custom.orbit with
  | none => (true, details, none, [])
  | some orb =>
    let details := { details with orbit := some orb }
    match orbitBarycenterRef st starData with
    | none => (true, details, none, [])
    | some (some bcn) =>
      let pending := [(catalogNumber, bcn)]
      match findWhileLoading st bcn with
      | some p => (true, details, some (starAt st p).position, pending)
      | none => (false, details, none, pending)
    | some none => (false, details, none, [])

/-- The field-by-field customization of the (non-shared) details record in
`StarDatabase::applyCustomStarDetails`, up to the `applyOrbit` call:
texture (with the texture-knowledge flag), geometry handle, ellipsoid
semi-axes, radius (with the radius-knowledge flag), temperature with the
recomputed bolometric correction when none is given, explicit bolometric
correction, and info URL. -/
def customizeDetails (env : Env) (details : StarDetails)
    (custom : CustomStarDetails) : StarDetails :=
  let details :=
    match custom.textureName with
    | some t => { details with texture := some t,
                               knowledge := details.knowledge ||| KnowTexture }
    | none => details
  let details :=
    match custom.modelName with
    | some m => { details with geometry := some (env.geometryHandle m) }
    | none => details
  let details :=
    match custom.semiAxes with
    | some sa => { details with semiAxes := some sa }
    | none => details
  let details :=
    match custom.radius with
    | some r => { details with radius := some r,
                               knowledge := details.knowledge ||| KnowRadius }
    | none => details
  let details :=
    if 0 < custom.temperature then
      let details := { details with temperature := custom.temperature }
      match custom.bolometricCorrection with
      | none =>
        { details with bolometricCorrection :=
            env.computeBolometricCorrection custom.temperature }
      | some _ => details
    else details
  let details :=
    match custom.bolometricCorrection with
    | some bc => { details with bolometricCorrection := bc }
    | none => details
  match custom.infoURL with
  | some u => { details with infoURL := some u }
  | none => details

/-- `StarDatabase::applyCustomStarDetails`: write the custom fields into
the star's (necessarily non-shared) details record, delegate to
`applyOrbit`, then attach the custom rotation model (skipped when
`applyOrbit` fails, which also abandons the rotation model in the
source). -/
def applyCustomStarDetails (env : Env) (st : LoadState) (star : Star)
    (catalogNumber : Nat) (starData : StarData) (custom : CustomStarDetails) :
    Bool × Star × Option Vec3 × List (Nat × Nat) :=
  match custom.hasCustomDetails with
  | false => (true, star, none, [])
  | true =>
    match applyOrbit st catalogNumber starData
        (customizeDetails env star.details custom) custom with
    | (false, details, _, pending) => (false, { star with details := details }, none, pending)
    | (true, details, baryPos, pending) =>
      let details :=
        match custom.rm with
        | some r => { details with rotationModel := some r }
        | none => details
      (true, { star with details := details }, baryPos, pending)

/-- `StarDatabase::createOrUpdateStarDetails`: obtain the reference details
(the barycenter placeholder, or the classification lookup of the parsed
spectral type — required for new stars, optional for `Modify`), apply the
copy-on-write rules, then the custom details. -/
def createOrUpdateStarDetails (env : Env) (st : LoadState) (star : Star)
    (disp : DataDisposition) (catalogNumber : Nat) (starData : StarData)
    (isBarycenter : Bool) : Bool × Star × Option Vec3 × List (Nat × Nat) :=
  let refD? : Option (Option StarDetails) :=
    match isBarycenter with
    | true => some (some env.barycenterDetails)
    | false =>
      match starData.spectralType with
      | some sp =>
        match env.getStarDetails (env.parseSpectral sp) with
        | some rd => some (some rd)
        | none => none
      | none =>
        match disp with
        | DataDisposition.Modify => some none
        | _ => none
  match refD? with
  | none => (false, star, none, [])
  | some rd? =>
    let custom := parseCustomStarDetails env starData
    let star :=
      match disp with
      | DataDisposition.Modify => modifyStarDetails star rd? custom.hasCustomDetails
      | _ =>
        match rd? with
        | some r =>
          { star with details :=
              match custom.hasCustomDetails with
              | true => r.clone
              | false => r }
        | none => star
    applyCustomStarDetails env st star catalogNumber starData custom

/-- `StarDatabase::createStar`: details, then catalog number (not for
`Modify`), then position (barycenter position, explicit rectangular
`Position`, or spherical coordinates with `Modify` backfilling omitted
angles from the star's existing position), then magnitude and extinction.
Returns (success flag, the star as mutated so far — partial mutations
persist on failure exactly as they do through the C++ `Star*` — and the
pending barycenter pairs appended by `applyOrbit`). -/
def createStar (env : Env) (st : LoadState) (star : Star)
    (disp : DataDisposition) (catalogNumber : Nat) (starData : StarData)
    (isBarycenter : Bool) : Bool × Star × List (Nat × Nat) :=
  match createOrUpdateStarDetails env st star disp catalogNumber starData isBarycenter with
  | (false, star, _, pending) => (false, star, pending)
  | (true, star, barycenterPosition, pending) =>
    let star :=
      match disp with
      | DataDisposition.Modify => star
      | _ => { star with index := catalogNumber }
    let posStep : Option Star :=
      match barycenterPosition with
      | some p => some { star with position := p }
      | none =>
        match starData.position with
        | some p => some { star with position := p }
        | none =>
          if starData.ra.isNone ∧ disp ≠ DataDisposition.Modify then none
          else if starData.dec.isNone ∧ disp ≠ DataDisposition.Modify then none
          else if starData.distance.isNone ∧ disp ≠ DataDisposition.Modify then none
          else
            let s0 : ℚ × ℚ × ℚ :=
              if disp = DataDisposition.Modify then env.rectToSpherical star.position
              else (0, 0, 0)
            let ra := starData.ra.getD s0.1
            let dec := starData.dec.getD s0.2.1
            let dist := starData.distance.getD s0.2.2
            let modifyPosition :=
              starData.ra.isSome || starData.dec.isSome || starData.distance.isSome
            some (if modifyPosition then
                    { star with position := env.equatorialToCelestialCart ra dec dist }
                  else star)
    match posStep with
    | none => (false, star, pending)
    | some star =>
      match isBarycenter with
      | true => (true, { star with absMag := 30 }, pending)
      | false =>
        let absoluteDefined := starData.absMag.isSome
        let magnitude? : Option (Option ℚ) :=
          match starData.absMag with
          | some m => some (some m)
          | none =>
            match starData.appMag with
            | some app =>
              let distance := env.vecNorm star.position
              if distance < 1 / 100000 then none
              else some (some (env.appToAbsMag app distance))
            | none => if disp ≠ DataDisposition.Modify then none else some none
        match magnitude? with
        | none => (false, star, pending)
        | some mag? =>
          let star :=
            match mag? with
            | some m => { star with absMag := m }
            | none => star
          match starData.extinction with
          | none => (true, star, pending)
          | some ext =>
            let distance := env.vecNorm star.position
            let p :=
              if distance ≠ 0 then ({ star with extinction := ext / distance }, ext)
              else (star, (0 : ℚ))
            let star := p.1
            let star :=
              match absoluteDefined with
              | false => { star with absMag := star.absMag - p.2 }
              | true => star
            (true, star, pending)

/-! ## The textual merge loop (`StarDatabase::load`) -/

/-- One already-tokenized textual record: the tokenizer and property-list
parser are external collaborators (spec §1, §6), so a record arrives with
its disposition, object kind, optional explicit catalog number, the
colon-separated name list already split, and the parsed property map. -/
structure StcRecord where
  disposition : DataDisposition
  isStar : Bool
  number : Option Nat
  names : List (List Char)
  data : StarData

/-- Resolution of a record's target catalog number for `Replace` and
`Modify`: the explicit number if given, otherwise a name lookup through
`findCatalogNumberByName` on the record's first name. -/
def resolveByNumberOrName (st : LoadState) (number : Option Nat)
    (firstName : List Char) : Option Nat :=
  match number with
  | some n => some n
  | none => if firstName.isEmpty then none else findCatalogNumberByName st firstName

/-- Disposition switch of `StarDatabase::load`: resolve the record to a
catalog number and (possibly) an existing arena star.  Returns `none` for
the fatal "barycenter with neither catalog number nor name" error,
otherwise (resolved catalog number if any, found arena position if any,
updated auto-number counter).  `Add` never resolves a name to a number;
`Replace` and `Modify` do; `Add` and `Replace` fall back to an
auto-assigned (downward-counting) number. -/
def resolveDisposition (rec : StcRecord) (st : LoadState) :
    Option (Option Nat × Option Nat × Nat) :=
  let firstName := rec.names.headD []
  match rec.disposition with
  | DataDisposition.Add =>
    match rec.number with
    | none =>
      if rec.isStar = false ∧ firstName.isEmpty then none
      else some (some st.nextAutoCatalogNumber, none, st.nextAutoCatalogNumber - 1)
    | some n => some (some n, findWhileLoading st n, st.nextAutoCatalogNumber)
  | DataDisposition.Replace =>
    match resolveByNumberOrName st rec.number firstName with
    | none => some (some st.nextAutoCatalogNumber, none, st.nextAutoCatalogNumber - 1)
    | some n => some (some n, findWhileLoading st n, st.nextAutoCatalogNumber)
  | DataDisposition.Modify =>
    let n? := resolveByNumberOrName st rec.number firstName
    some (n?, n?.bind (findWhileLoading st), st.nextAutoCatalogNumber)

/-- Processing of one record by `StarDatabase::load`: `none` is a fatal
parse error aborting the whole load; `some st` continues with the next
record.  A `Modify` with no existing target is skipped with a warning.  On
success a new star is appended to the arena and indexed, or the found star
is updated in place; the record's names replace any existing names for the
catalog number.  On a `createStar` failure the record is skipped, but
mutations already made through the arena pointer persist, as do pending
barycenter pairs pushed by `applyOrbit`.  (Category tags and the
`loadCategories` call are outside the modelled state.) -/
def processRecord (env : Env) (rec : StcRecord) (st : LoadState) : Option LoadState :=
  match resolveDisposition rec st with
  | none => none
  | some (cat?, starPos?, nextAuto) =>
    let st := { st with nextAutoCatalogNumber := nextAuto }
    if rec.disposition = DataDisposition.Modify ∧ starPos?.isNone then
      some st
    else
      match cat? with
      | none => some st
      | some catalogNumber =>
        let star0 :=
          match starPos? with
          | some p => starAt st p
          | none => freshStar
        match createStar env st star0 rec.disposition catalogNumber rec.data
            (rec.isStar = false) with
        | (ok, star', pending) =>
          let st := { st with barycenters := st.barycenters ++ pending }
          if ok then
            let st :=
              match starPos? with
              | some p => { st with unsortedStars := st.unsortedStars.set p star' }
              | none =>
                { st with
                  unsortedStars := st.unsortedStars ++ [star'],
                  nStars := st.nStars + 1,
                  stcFileCatalogNumberIndex :=
                    (catalogNumber, st.unsortedStars.length) ::
                      st.stcFileCatalogNumberIndex }
            let newNames :=
              (rec.names.filter (fun nm => nm.isEmpty = false)).map
                (fun nm => (catalogNumber, nm))
            let st :=
              if rec.names.isEmpty then st
              else
                { st with namesDB :=
                    st.namesDB.filter (fun e => decide (e.1 ≠ catalogNumber)) ++ newNames }
            some st
          else
            match starPos? with
            | some p => some { st with unsortedStars := st.unsortedStars.set p star' }
            | none => some st

/-- `StarDatabase::load(in, resourcePath)` over a list of already-tokenized
records: fold `processRecord`, aborting the whole load on a fatal error. -/
def load (env : Env) (recs : List StcRecord) (st : LoadState) : Option LoadState :=
  match recs with
  | [] => some st
  | rec :: rest =>
    match processRecord env rec st with
    | none => none
    | some st => load env rest st

/-! ## The finish pass (`StarDatabase::finish`) -/

/-- Position-returning variant of `find`: the same `std::lower_bound` over
the sorted catalog-number index (first slot whose catalog number is not
below the target, then an equality check), returning the array slot so that
the model can write through the returned pointer. -/
def findPos : List Star → Nat → Option Nat
  | [], _ => none
  | s :: t, n =>
    if n ≤ s.index then (if s.index = n then some 0 else none)
    else (findPos t n).map (fun i => i + 1)

/-- One iteration of the barycenter-resolution loop in
`StarDatabase::finish`: look up both catalog numbers of a pending pair in
the finalized index; when both resolve, set the orbiting star's barycenter
reference and append the orbiting star to the barycenter's list; otherwise
leave the state untouched (the release build skips the pair; `assert` is
compiled out and nothing observable happens). -/
def linkPair (stars : List Star) (p : Nat × Nat) : List Star :=
  match findPos stars p.1, findPos stars p.2 with
  | some i, some j =>
    let stars1 := stars.set i { stars.getD i default with orbitBarycenter := some p.2 }
    stars1.set j
      { stars1.getD j default with
        orbitingStars := (stars1.getD j default).orbitingStars ++ [p.1] }
  | _, _ => stars

/-- The barycenter-resolution loop of `StarDatabase::finish`, over the
whole pending list (which is cleared afterwards). -/
def resolveBarycenters (stars : List Star) (pending : List (Nat × Nat)) : List Star :=
  pending.foldl linkPair stars

/-- Resolvability of a pending pair against the finalized index: both
catalog numbers are found.  This is the guard condition
`star != nullptr && barycenter != nullptr` of `StarDatabase::finish`. -/
def resolvablePair (stars : List Star) (p : Nat × Nat) : Bool :=
  (findPos stars p.1).isSome && (findPos stars p.2).isSome

/-! ## Concrete data for witnesses -/

/-- Cross-index state with one loaded table, for the reload claims. -/
def crossStateW : CrossState := ⟨[some [⟨1, 2⟩], none]⟩

/-- Sample details record used by witness instantiations. -/
def detailsW : StarDetails :=
  { spectralType := 7, temperature := 5000, bolometricCorrection := 0,
    texture := none, geometry := none, radius := none, semiAxes := none,
    knowledge := 0, rotationModel := none, orbit := none, visibility := true,
    infoURL := none, shared := true }

/-- Sample star with catalog number 5. -/
def starW5 : Star :=
  { index := 5, position := ⟨1, 0, 0⟩, absMag := 2, extinction := 0,
    details := detailsW, orbitBarycenter := none, orbitingStars := [] }

/-- Sample star with catalog number 3. -/
def starW3 : Star :=
  { index := 3, position := ⟨0, 2, 0⟩, absMag := 4, extinction := 0,
    details := detailsW, orbitBarycenter := none, orbitingStars := [] }

/-- Sample finalized store for witnesses (distinct catalog numbers, not
sorted). -/
def starsW : List Star := [starW5, starW3]

/-- Concrete collaborator environment for witnesses: every spectral code
resolves to `detailsW`, float patterns decode to 0, and the remaining
collaborators return fixed simple values. -/
def envW : Env :=
  { binDetails := fun _ => some detailsW,
    decodeFloat := fun _ => 0,
    parseSpectral := fun _ => 0,
    getStarDetails := fun _ => some detailsW,
    barycenterDetails := { detailsW with spectralType := 99 },
    createOrbit := fun _ => none,
    createRotationModel := fun _ => none,
    equatorialToCelestialCart := fun a d r => ⟨a, d, r⟩,
    rectToSpherical := fun _ => (0, 0, 0),
    vecNorm := fun v => v.x,
    appToAbsMag := fun m _ => m,
    computeBolometricCorrection := fun _ => 0,
    geometryHandle := fun _ => 0 }

/-- A well-formed binary catalog stream declaring one 20-byte record:
catalog number 42, zero position words, magnitude word 256 (1.0 after the
1/256 scaling), spectral code 0. -/
def sGoodW : List Nat :=
  STARSDAT_MAGIC ++ [0, 1] ++ [1, 0, 0, 0] ++
    ([42, 0, 0, 0] ++ [0, 0, 0, 0] ++ [0, 0, 0, 0] ++ [0, 0, 0, 0] ++ [0, 1] ++ [0, 0])

/-- The star decoded from the single record of `sGoodW` under `envW`. -/
def binStarW : Star :=
  { index := 42, position := ⟨0, 0, 0⟩, absMag := 1, extinction := 0,
    details := detailsW, orbitBarycenter := none, orbitingStars := [] }

/-- A stream with a valid header declaring one record but carrying only 18
bytes of record data — well formed by the claim's 18-byte record layout,
short by the code's 20-byte one. -/
def s18BadW : List Nat :=
  STARSDAT_MAGIC ++ [0, 1] ++ [1, 0, 0, 0] ++ List.replicate 18 0

/-- Property map with every key absent. -/
def emptyStarData : StarData :=
  { position := none, ra := none, dec := none, distance := none,
    absMag := none, appMag := none, extinction := none, spectralType := none,
    mesh := none, texture := none, semiAxes := none, radius := none,
    temperature := none, bolometricCorrection := none, infoURL := none,
    orbitBarycenter := none }

/-- Empty load state for witnesses. -/
def stEmpty : LoadState :=
  { unsortedStars := [], binFileCatalogNumberIndex := [],
    stcFileCatalogNumberIndex := [], namesDB := [], barycenters := [],
    nextAutoCatalogNumber := 1000, nStars := 0, crossIndexes := [none, none] }

/-- Load state holding one committed stc star (`starW5` at arena slot 0)
for witnesses. -/
def stOneW : LoadState :=
  { unsortedStars := [starW5], binFileCatalogNumberIndex := [],
    stcFileCatalogNumberIndex := [(5, 0)], namesDB := [], barycenters := [],
    nextAutoCatalogNumber := 1000, nStars := 1, crossIndexes := [none, none] }

/-- A complete star record (position, spectral type, absolute magnitude)
for the disposition witnesses. -/
def dataFullW : StarData :=
  { emptyStarData with
    position := some ⟨3, 0, 0⟩, absMag := some 6, spectralType := some ['G'] }

/-- Extinction record resolving its magnitude from `AppMag`: position
(2,0,0) — distance 2 from the origin — apparent magnitude 5, extinction
value 2. -/
def dataExtAppW : StarData :=
  { emptyStarData with
    position := some ⟨2, 0, 0⟩, appMag := some 5, extinction := some 2,
    spectralType := some ['G'] }

/-- Extinction record with a directly specified absolute magnitude 5,
position (2,0,0) and extinction value 2. -/
def dataExtAbsW : StarData :=
  { emptyStarData with
    position := some ⟨2, 0, 0⟩, absMag := some 5, extinction := some 2,
    spectralType := some ['G'] }

/-- Result of applying `dataFullW` over an existing or fresh star under
`envW`: catalog fields from the record. -/
def starFromDataFullW (n : Nat) : Star :=
  { index := n, position := ⟨3, 0, 0⟩, absMag := 6, extinction := 0,
    details := detailsW, orbitBarycenter := none, orbitingStars := [] }

/-- Environment like `envW` whose orbit factory produces an orbit handle
for every record. -/
def envOrbW : Env := { envW with createOrbit := fun _ => some 1 }

/-- Record data defining an orbit around the (nonexistent) barycenter 60. -/
def dataOrbW : StarData :=
  { emptyStarData with
    position := some ⟨1, 0, 0⟩, absMag := some 1,
    spectralType := some ['G'], orbitBarycenter := some (Sum.inr 60) }

/-- Extinction record sitting exactly at the origin (distance 0), with a
direct absolute magnitude. -/
def dataExtZeroW : StarData :=
  { emptyStarData with
    position := some ⟨0, 0, 0⟩, absMag := some 5, extinction := some 2,
    spectralType := some ['G'] }

/-! ## Theorems -/

instance : IsTotal Star (fun s0 s1 => s0.index ≤ s1.index) :=
  ⟨fun a b => Nat.le_total a.index b.index⟩

instance : IsTrans Star (fun s0 s1 => s0.index ≤ s1.index) :=
  ⟨fun _ _ _ h1 h2 => Nat.le_trans h1 h2⟩

theorem find_eq_none_of_not_mem (l : List Star) (n : Nat)
    (h : n ∉ l.map Star.index) : find l n = none := by
  unfold find
  cases hf : l.find? (fun s => decide (n ≤ s.index)) with
  | none => rfl
  | some s =>
    have hs : s ∈ l := List.mem_of_find?_eq_some hf
    have hne : s.index ≠ n := fun he => h (he ▸ List.mem_map_of_mem Star.index hs)
    simp [hne]

theorem find_eq_some_of_pairwise :
    ∀ (l : List Star), List.Pairwise (fun s0 s1 => s0.index < s1.index) l →
      ∀ e ∈ l, find l e.index = some e := by
  intro l
  induction l with
  | nil => intro _ e he; cases he
  | cons s t ih =>
    intro hp e he
    have hp' := List.pairwise_cons.mp hp
    rcases List.mem_cons.mp he with rfl | het
    · unfold find
      rw [List.find?_cons_of_pos _ (by simp)]
      simp
    · have hlt : s.index < e.index := hp'.1 e het
      have hdec : (decide (e.index ≤ s.index)) = false := by
        simp only [decide_eq_false_iff_not]; omega
      have := ih hp'.2 e het
      unfold find at this ⊢
      rw [List.find?_cons_of_neg _ (by simp; omega)]
      exact this

/-- C1: after `finish` has completed, over a finalized store with distinct
catalog numbers (the documented invariant of the finalized set), the
catalog-number index built by `buildIndexes` is strictly increasing with no
duplicate catalog numbers, `find` returns exactly each stored entry at its
own number, and `find` returns null for every number belonging to no
entry. -/
theorem finalized_find_exact (stars : List Star)
    (hnodup : (stars.map Star.index).Nodup) :
    List.Pairwise (fun s0 s1 => s0.index < s1.index) (buildIndexes stars) ∧
    (∀ e ∈ stars, find (buildIndexes stars) e.index = some e) ∧
    (∀ n, n ∉ stars.map Star.index → find (buildIndexes stars) n = none) := by
  have hperm : List.Perm (buildIndexes stars) stars := List.perm_insertionSort _ _
  have hsorted : List.Sorted (fun s0 s1 => s0.index ≤ s1.index) (buildIndexes stars) :=
    List.sorted_insertionSort _ _
  have hnodup' : ((buildIndexes stars).map Star.index).Nodup :=
    (hperm.map Star.index).nodup_iff.mpr hnodup
  have hne : List.Pairwise (fun s0 s1 : Star => s0.index ≠ s1.index) (buildIndexes stars) :=
    List.pairwise_map.mp hnodup'
  have hstrict : List.Pairwise (fun s0 s1 : Star => s0.index < s1.index) (buildIndexes stars) :=
    (hsorted.and hne).imp fun h => Nat.lt_of_le_of_ne h.1 h.2
  refine ⟨hstrict, ?_, ?_⟩
  · intro e he
    exact find_eq_some_of_pairwise _ hstrict e (hperm.mem_iff.mpr he)
  · intro n hn
    refine find_eq_none_of_not_mem _ _ fun hmem => hn ?_
    exact ((hperm.map Star.index).mem_iff).mp hmem

/-- Witness for C1 at a concrete two-entry store. -/
theorem finalized_find_exact_witness :
    find (buildIndexes starsW) 3 = some starW3 ∧
    find (buildIndexes starsW) 4 = none := by
  have h := finalized_find_exact starsW (by decide)
  exact ⟨h.2.1 starW3 (by decide), h.2.2 4 (by decide)⟩

theorem getD_set_self (l : List α) (i : Nat) (a d : α) (h : i < l.length) :
    (l.set i a).getD i d = a := by
  induction l generalizing i with
  | nil => simp at h
  | cons x t ih =>
    cases i with
    | zero => rfl
    | succ j => simpa using ih j (by simpa using h)

theorem getD_set_ne (l : List α) (i j : Nat) (a d : α) (h : i ≠ j) :
    (l.set i a).getD j d = l.getD j d := by
  induction l generalizing i j with
  | nil => simp [List.set]
  | cons x t ih =>
    cases i with
    | zero =>
      cases j with
      | zero => exact absurd rfl h
      | succ k => rfl
    | succ i' =>
      cases j with
      | zero => rfl
      | succ k => simpa using ih i' k (by omega)

/-- Counterexample for C2: with a table already loaded for catalog 0,
a reload from an empty (hence failing) stream reports failure but does not
leave the previous table intact — the state changes and the slot no longer
holds the old table, because `loadCrossIndex` frees the old table before
reading the header. -/
theorem loadCrossIndex_failed_reload_destroys_table :
    (loadCrossIndex 0 [] crossStateW).1 = false ∧
    (loadCrossIndex 0 [] crossStateW).2 ≠ crossStateW ∧
    (loadCrossIndex 0 [] crossStateW).2.crossIndexes.getD 0 none = none := by
  decide

/-- C2 amended: for a valid catalog identity, a failed reload leaves the
catalog with no loaded table at all: the old table is freed before the
stream is parsed, so failure yields an absent (in C++ dangling) table
rather than the previous one. -/
theorem loadCrossIndex_failure_leaves_no_table (catalog : Nat) (s : List Nat)
    (st : CrossState) (hcat : catalog < st.crossIndexes.length)
    (hfail : (loadCrossIndex catalog s st).1 = false) :
    (loadCrossIndex catalog s st).2.crossIndexes.getD catalog none = none := by
  have hset : ((st.crossIndexes.set catalog none).getD catalog none) = none :=
    getD_set_self _ _ _ _ (by simpa using hcat)
  unfold loadCrossIndex at hfail ⊢
  rw [if_neg (by omega)] at hfail ⊢
  cases hr : readBytes 10 s with
  | none => simp only [hr]; exact hset
  | some pr =>
    obtain ⟨header, rest⟩ := pr
    simp only [hr] at hfail ⊢
    by_cases hm : header.take 8 ≠ CROSSINDEX_MAGIC
    · simp only [if_pos hm]; exact hset
    · simp only [if_neg hm] at hfail ⊢
      by_cases hv : leVal (header.drop 8) ≠ 256
      · simp only [if_pos hv]; exact hset
      · simp only [if_neg hv] at hfail ⊢
        cases hl : loadCrossIndexLoop (rest.length / 4096 + 1) rest [] with
        | none => simp only [hl]; exact hset
        | some entries => rw [hl] at hfail; simp at hfail

/-- Witness for the amended C2 theorem at a concrete state and stream. -/
theorem loadCrossIndex_failure_leaves_no_table_witness :
    (loadCrossIndex 0 [] crossStateW).2.crossIndexes.getD 0 none = none :=
  loadCrossIndex_failure_leaves_no_table 0 [] crossStateW (by decide) (by decide)

theorem findPos_some (l : List Star) (n i : Nat) (h : findPos l n = some i) :
    i < l.length ∧ (l.getD i default).index = n := by
  induction l generalizing i with
  | nil => simp [findPos] at h
  | cons s t ih =>
    unfold findPos at h
    by_cases hle : n ≤ s.index
    · rw [if_pos hle] at h
      by_cases heq : s.index = n
      · rw [if_pos heq] at h
        cases h
        exact ⟨by simp, heq⟩
      · rw [if_neg heq] at h; cases h
    · rw [if_neg hle] at h
      cases hf : findPos t n with
      | none => rw [hf] at h; cases h
      | some j =>
        rw [hf] at h
        simp only [Option.map_some'] at h
        obtain ⟨hjl, hji⟩ := ih j hf
        cases h
        exact ⟨by simpa using hjl, by simpa using hji⟩

theorem map_index_set_preserve (l : List Star) (i : Nat) (a : Star)
    (h : a.index = (l.getD i default).index) :
    (l.set i a).map Star.index = l.map Star.index := by
  induction l generalizing i with
  | nil => simp
  | cons x t ih =>
    cases i with
    | zero => simp_all [List.getD_cons_zero]
    | succ j =>
      simp only [List.set_cons_succ, List.map_cons, List.cons.injEq, true_and]
      exact ih j (by simpa [List.getD_cons_succ] using h)

theorem findPos_congr (l₁ l₂ : List Star) (h : l₁.map Star.index = l₂.map Star.index)
    (n : Nat) : findPos l₁ n = findPos l₂ n := by
  induction l₁ generalizing l₂ with
  | nil =>
    have : l₂ = [] := by simpa using h.symm
    rw [this]
  | cons s t ih =>
    cases l₂ with
    | nil => simp at h
    | cons s' t' =>
      simp only [List.map_cons, List.cons.injEq] at h
      unfold findPos
      rw [h.1, ih t' h.2]

theorem linkPair_map_index (stars : List Star) (p : Nat × Nat) :
    (linkPair stars p).map Star.index = stars.map Star.index := by
  unfold linkPair
  cases h1 : findPos stars p.1 with
  | none => rfl
  | some i =>
    cases h2 : findPos stars p.2 with
    | none => rfl
    | some j =>
      dsimp only
      have e1 := map_index_set_preserve stars i
        { stars.getD i default with orbitBarycenter := some p.2 } rfl
      have e2 := map_index_set_preserve
        (stars.set i { stars.getD i default with orbitBarycenter := some p.2 }) j
        { (stars.set i
            { stars.getD i default with orbitBarycenter := some p.2 }).getD j default with
          orbitingStars :=
            ((stars.set i
              { stars.getD i default with orbitBarycenter := some p.2 }).getD j
                default).orbitingStars ++ [p.1] } rfl
      exact e2.trans e1

theorem resolvablePair_linkPair (stars : List Star) (p q : Nat × Nat) :
    resolvablePair (linkPair stars p) q = resolvablePair stars q := by
  unfold resolvablePair
  rw [findPos_congr _ _ (linkPair_map_index stars p),
    findPos_congr _ _ (linkPair_map_index stars p)]

theorem linkPair_unresolvable (stars : List Star) (p : Nat × Nat)
    (h : resolvablePair stars p = false) : linkPair stars p = stars := by
  unfold resolvablePair at h
  unfold linkPair
  cases h1 : findPos stars p.1 with
  | none => rfl
  | some i =>
    cases h2 : findPos stars p.2 with
    | none => rfl
    | some j => rw [h1, h2] at h; simp at h

theorem resolveBarycenters_eq_filter (stars : List Star) (pending : List (Nat × Nat)) :
    resolveBarycenters stars pending =
      resolveBarycenters stars (pending.filter (resolvablePair stars)) := by
  induction pending generalizing stars with
  | nil => rfl
  | cons p rest ih =>
    by_cases hp : resolvablePair stars p = true
    · have hfil : (p :: rest).filter (resolvablePair stars) =
          p :: rest.filter (resolvablePair stars) := by
        simp [List.filter_cons, hp]
      rw [hfil]
      simp only [resolveBarycenters, List.foldl_cons]
      have hcong : rest.filter (resolvablePair stars) =
          rest.filter (resolvablePair (linkPair stars p)) :=
        List.filter_congr fun x _ => (resolvablePair_linkPair stars p x).symm
      rw [hcong]
      simpa only [resolveBarycenters] using ih (linkPair stars p)
    · have hp' : resolvablePair stars p = false := by
        revert hp; cases resolvablePair stars p <;> simp
      have hfil : (p :: rest).filter (resolvablePair stars) =
          rest.filter (resolvablePair stars) := by
        simp [List.filter_cons, hp']
      rw [hfil]
      simp only [resolveBarycenters, List.foldl_cons]
      rw [linkPair_unresolvable stars p hp']
      simpa only [resolveBarycenters] using ih stars

/-- C8: the finish pass resolves the pending pairs recorded during merge
against the finalized catalog-number index.  A pair whose two numbers both
resolve links the two entries — the orbiting entry's barycenter reference
is set and the orbiting entry is appended to the barycenter's list.  A pair
that does not fully resolve changes nothing at all: the pass does not
abort, the remaining pairs are still processed (dropping unresolvable pairs
from the list leaves the result unchanged), and in particular the orbiting
entry's barycenter link stays unset, so callers observe it as having no
parent.  The defect report is observational only (in release builds the
`assert` is compiled out) and is not part of the modelled state. -/
theorem finish_resolves_pending (stars : List Star) (pending : List (Nat × Nat)) :
    (∀ p : Nat × Nat, resolvablePair stars p = false → linkPair stars p = stars) ∧
    (∀ c b i j, findPos stars c = some i → findPos stars b = some j → i ≠ j →
      (linkPair stars (c, b)).getD i default =
        { stars.getD i default with orbitBarycenter := some b } ∧
      (linkPair stars (c, b)).getD j default =
        { stars.getD j default with
          orbitingStars := (stars.getD j default).orbitingStars ++ [c] }) ∧
    resolveBarycenters stars pending =
      resolveBarycenters stars (pending.filter (resolvablePair stars)) := by
  refine ⟨fun p => linkPair_unresolvable stars p, ?_, resolveBarycenters_eq_filter stars pending⟩
  intro c b i j h1 h2 hij
  have hi := findPos_some stars c i h1
  have hj := findPos_some stars b j h2
  unfold linkPair
  simp only [h1, h2]
  constructor
  · rw [getD_set_ne _ j i _ _ (Ne.symm hij), getD_set_self _ _ _ _ hi.1]
  · rw [getD_set_self _ _ _ _ (by simpa using hj.1),
      getD_set_ne _ i j _ _ hij]

/-- Witness for C8 at a concrete finalized index and pending list. -/
theorem finish_resolves_pending_witness :
    linkPair (buildIndexes starsW) (99, 3) = buildIndexes starsW ∧
    (linkPair (buildIndexes starsW) (5, 3)).getD 1 default =
      { starW5 with orbitBarycenter := some 3 } ∧
    resolveBarycenters (buildIndexes starsW) [(99, 3), (5, 3)] =
      resolveBarycenters (buildIndexes starsW) [(5, 3)] := by
  have h := finish_resolves_pending (buildIndexes starsW) [(99, 3), (5, 3)]
  refine ⟨h.1 (99, 3) (by decide), ?_, ?_⟩
  · have h2 := (h.2.1 5 3 1 0 (by decide) (by decide) (by decide)).1
    rw [show (buildIndexes starsW).getD 1 default = starW5 from by decide] at h2
    exact h2
  · have h3 := h.2.2
    rw [show List.filter (resolvablePair (buildIndexes starsW)) [(99, 3), (5, 3)] =
        [(5, 3)] from by decide] at h3
    exact h3

theorem readBytes_pos (n : Nat) (s : List Nat) (h : n ≤ s.length) :
    readBytes n s = some (s.take n, s.drop n) := if_pos h

theorem readBytes_neg (n : Nat) (s : List Nat) (h : ¬n ≤ s.length) :
    readBytes n s = none := if_neg h

theorem decodeStarRecord_isSome (env : Env) (htotal : ∀ c, (env.binDetails c).isSome)
    (bytes : List Nat) : (decodeStarRecord env bytes).isSome := by
  unfold decodeStarRecord
  dsimp only
  cases hd : env.binDetails (leVal ((bytes.drop 18).take 2)) with
  | none =>
    have := htotal (leVal ((bytes.drop 18).take 2))
    rw [hd] at this; simp at this
  | some d => simp

theorem decodeStarChunk_isSome (env : Env) (htotal : ∀ c, (env.binDetails c).isSome) :
    ∀ (k : Nat) (bytes : List Nat), (decodeStarChunk env bytes k).isSome := by
  intro k
  induction k with
  | zero => intro bytes; simp [decodeStarChunk]
  | succ k ih =>
    intro bytes
    unfold decodeStarChunk
    cases hr : decodeStarRecord env (bytes.take 20) with
    | none =>
      have := decodeStarRecord_isSome env htotal (bytes.take 20)
      rw [hr] at this; simp at this
    | some s =>
      cases hc : decodeStarChunk env (bytes.drop 20) k with
      | none =>
        have := ih (bytes.drop 20)
        rw [hc] at this; simp at this
      | some t => simp

theorem decodeStarChunk_length (env : Env) :
    ∀ (k : Nat) (bytes : List Nat) (stars : List Star),
      decodeStarChunk env bytes k = some stars → stars.length = k := by
  intro k
  induction k with
  | zero => intro bytes stars h; cases h; rfl
  | succ k ih =>
    intro bytes stars h
    unfold decodeStarChunk at h
    cases hr : decodeStarRecord env (bytes.take 20) with
    | none => rw [hr] at h; cases h
    | some s =>
      rw [hr] at h
      cases hc : decodeStarChunk env (bytes.drop 20) k with
      | none => rw [hc] at h; cases h
      | some t =>
        rw [hc] at h
        cases h
        simpa using ih (bytes.drop 20) t hc

theorem loadBinaryLoop_isSome (env : Env) (htotal : ∀ c, (env.binDetails c).isSome) :
    ∀ (fuel rem : Nat) (s : List Nat) (acc : List Star), rem ≤ fuel →
      ((loadBinaryLoop env fuel s rem acc).isSome ↔ 20 * rem ≤ s.length) := by
  intro fuel
  induction fuel with
  | zero =>
    intro rem s acc hle
    have : rem = 0 := Nat.le_zero.mp hle
    subst this
    simp [loadBinaryLoop]
  | succ fuel ih =>
    intro rem s acc hle
    unfold loadBinaryLoop
    by_cases h0 : rem = 0
    · subst h0; simp
    · rw [if_neg h0]
      dsimp only
      have htr1 : 1 ≤ min STARS_BUFFER_RECORDS rem := by
        unfold STARS_BUFFER_RECORDS; omega
      have htrr : min STARS_BUFFER_RECORDS rem ≤ rem := Nat.min_le_right _ _
      by_cases hlen : 20 * min STARS_BUFFER_RECORDS rem ≤ s.length
      · rw [readBytes_pos _ _ hlen]
        dsimp only
        cases hc : decodeStarChunk env (s.take (20 * min STARS_BUFFER_RECORDS rem))
            (min STARS_BUFFER_RECORDS rem) with
        | none =>
          have := decodeStarChunk_isSome env htotal (min STARS_BUFFER_RECORDS rem)
            (s.take (20 * min STARS_BUFFER_RECORDS rem))
          rw [hc] at this; simp at this
        | some stars =>
          dsimp only
          have := ih (rem - min STARS_BUFFER_RECORDS rem)
            (s.drop (20 * min STARS_BUFFER_RECORDS rem)) (acc ++ stars) (by omega)
          rw [List.length_drop] at this
          rw [this]
          omega
      · rw [readBytes_neg _ _ hlen]
        simp only [Option.isSome_none, Bool.false_eq_true, false_iff]
        omega

theorem take_drop_sub (l : List Nat) (m n : Nat) :
    (l.take m).drop n = (l.drop n).take (m - n) := by
  rw [List.drop_take]

/-- C6 counterexample: a stream whose header is valid and which carries at
least the declared number of complete 18-byte records — exactly the
acceptance condition the claim states — is nevertheless rejected by
`loadBinary`, because a `StarsDatRecord` occupies 20 bytes, even with a
classification service that resolves every spectral code. -/
theorem loadBinary_rejects_claimed_18_byte_stream :
    starsDatSpecWellFormed18 s18BadW ∧ loadBinary envW s18BadW = none := by
  constructor
  · decide
  · decide

/-- C6 amended: provided the classification service resolves every packed
spectral code (their decodability is a separate, fatal check), `loadBinary`
accepts a stream iff it begins with the 8-byte magic `CELSTARS`, the
little-endian 16-bit version 0x0100, and a little-endian 32-bit record
count followed by at least that many complete 20-byte records; any magic or
version mismatch, or fewer complete records than declared, fails the load
with no catalog produced. -/
theorem loadBinary_accepts_iff (env : Env) (s : List Nat)
    (htotal : ∀ c, (env.binDetails c).isSome) :
    (loadBinary env s).isSome ↔ starsDatWellFormed s := by
  unfold loadBinary starsDatWellFormed
  by_cases h14 : 14 ≤ s.length
  · rw [readBytes_pos _ _ h14]
    dsimp only
    have hmagic : (s.take 14).take 8 = s.take 8 := by
      rw [List.take_take]; norm_num
    have hver : ((s.take 14).drop 8).take 2 = (s.drop 8).take 2 := by
      rw [take_drop_sub]
      rw [List.take_take]
      norm_num
    have hcount : (s.take 14).drop 10 = (s.drop 10).take 4 := by
      rw [take_drop_sub]
    by_cases hm : s.take 8 = STARSDAT_MAGIC
    · by_cases hv : leVal ((s.drop 8).take 2) = 256
      · rw [if_neg (by rw [hmagic]; simpa using hm),
          if_neg (by rw [hver]; simpa using hv)]
        rw [hcount]
        have hloop := loadBinaryLoop_isSome env htotal (leVal ((s.drop 10).take 4))
          (leVal ((s.drop 10).take 4)) (s.drop 14) [] (Nat.le_refl _)
        rw [List.length_drop] at hloop
        rw [hloop]
        unfold declaredStarCount
        constructor
        · intro h; exact ⟨h14, hm, hv, by omega⟩
        · intro h; omega
      · rw [if_neg (by rw [hmagic]; simpa using hm), if_pos (by rw [hver]; simpa using hv)]
        simp only [Option.isSome_none, Bool.false_eq_true, false_iff]
        intro h; exact hv h.2.2.1
    · rw [if_pos (by rw [hmagic]; simpa using hm)]
      simp only [Option.isSome_none, Bool.false_eq_true, false_iff]
      intro h; exact hm h.2.1
  · rw [readBytes_neg _ _ h14]
    simp only [Option.isSome_none, Bool.false_eq_true, false_iff]
    intro h; exact h14 h.1

/-- Witness for the amended C6 theorem: the acceptance equivalence at a
concrete total environment and concrete stream. -/
theorem loadBinary_accepts_iff_witness :
    (loadBinary envW sGoodW).isSome ↔ starsDatWellFormed sGoodW :=
  loadBinary_accepts_iff envW sGoodW (fun _ => rfl)

theorem loadBinaryLoop_append (env : Env) (extra : List Nat) :
    ∀ (fuel rem : Nat) (s : List Nat) (acc l : List Star),
      loadBinaryLoop env fuel s rem acc = some l →
      loadBinaryLoop env fuel (s ++ extra) rem acc = some l := by
  intro fuel
  induction fuel with
  | zero =>
    intro rem s acc l h
    unfold loadBinaryLoop at h ⊢
    by_cases h0 : rem = 0
    · rw [if_pos h0] at h ⊢; exact h
    · rw [if_neg h0] at h; cases h
  | succ fuel ih =>
    intro rem s acc l h
    unfold loadBinaryLoop at h ⊢
    by_cases h0 : rem = 0
    · rw [if_pos h0] at h ⊢; exact h
    · rw [if_neg h0] at h ⊢
      dsimp only at h ⊢
      by_cases hlen : 20 * min STARS_BUFFER_RECORDS rem ≤ s.length
      · rw [readBytes_pos _ _ hlen] at h
        rw [readBytes_pos _ _ (by rw [List.length_append]; omega)]
        rw [List.take_append_of_le_length (by omega),
          List.drop_append_of_le_length (by omega)]
        dsimp only at h ⊢
        cases hc : decodeStarChunk env (s.take (20 * min STARS_BUFFER_RECORDS rem))
            (min STARS_BUFFER_RECORDS rem) with
        | none => rw [hc] at h; cases h
        | some stars =>
          rw [hc] at h
          dsimp only
          exact ih _ _ _ _ h
      · rw [readBytes_neg _ _ hlen] at h; cases h

theorem loadBinaryLoop_length (env : Env) :
    ∀ (fuel rem : Nat) (s : List Nat) (acc l : List Star),
      loadBinaryLoop env fuel s rem acc = some l → l.length = acc.length + rem := by
  intro fuel
  induction fuel with
  | zero =>
    intro rem s acc l h
    unfold loadBinaryLoop at h
    by_cases h0 : rem = 0
    · rw [if_pos h0] at h; cases h; omega
    · rw [if_neg h0] at h; cases h
  | succ fuel ih =>
    intro rem s acc l h
    unfold loadBinaryLoop at h
    by_cases h0 : rem = 0
    · rw [if_pos h0] at h; cases h; omega
    · rw [if_neg h0] at h
      dsimp only at h
      cases hr : readBytes (20 * min STARS_BUFFER_RECORDS rem) s with
      | none => rw [hr] at h; cases h
      | some pr =>
        obtain ⟨chunk, rest⟩ := pr
        rw [hr] at h
        dsimp only at h
        cases hc : decodeStarChunk env chunk (min STARS_BUFFER_RECORDS rem) with
        | none => rw [hc] at h; cases h
        | some stars =>
          rw [hc] at h
          have hlen := decodeStarChunk_length env _ _ _ hc
          have := ih _ _ _ _ h
          rw [List.length_append, hlen] at this
          have htrr : min STARS_BUFFER_RECORDS rem ≤ rem := Nat.min_le_right _ _
          omega

/-- C9: when `loadBinary` accepts a stream, appending arbitrary surplus
bytes changes nothing — the same catalog is produced (the surplus is never
read or validated), and the number of decoded records is exactly the
declared record count. -/
theorem loadBinary_ignores_surplus (env : Env) (s extra : List Nat) (l : List Star)
    (h : loadBinary env s = some l) :
    loadBinary env (s ++ extra) = some l ∧ l.length = declaredStarCount s := by
  unfold loadBinary at h ⊢
  by_cases h14 : 14 ≤ s.length
  · rw [readBytes_pos _ _ h14] at h
    rw [readBytes_pos _ _ (by rw [List.length_append]; omega)]
    rw [List.take_append_of_le_length h14, List.drop_append_of_le_length h14]
    dsimp only at h ⊢
    by_cases hm : (s.take 14).take 8 ≠ STARSDAT_MAGIC
    · rw [if_pos hm] at h; cases h
    · rw [if_neg hm] at h ⊢
      by_cases hv : leVal (((s.take 14).drop 8).take 2) ≠ 256
      · rw [if_pos hv] at h; cases h
      · rw [if_neg hv] at h ⊢
        refine ⟨loadBinaryLoop_append env extra _ _ _ _ _ h, ?_⟩
        have := loadBinaryLoop_length env _ _ _ _ _ h
        unfold declaredStarCount
        rw [show (s.take 14).drop 10 = (s.drop 10).take 4 from take_drop_sub s 14 10] at this
        simpa using this
  · rw [readBytes_neg _ _ h14] at h; cases h

/-- Witness for C9 at a concrete accepted stream with surplus bytes. -/
theorem loadBinary_ignores_surplus_witness :
    loadBinary envW (sGoodW ++ [7, 7]) = loadBinary envW sGoodW ∧
    ((loadBinary envW sGoodW).getD []).length = declaredStarCount sGoodW := by
  have hs : (loadBinary envW sGoodW).isSome := by decide
  obtain ⟨l, hl⟩ := Option.isSome_iff_exists.mp hs
  have h := loadBinary_ignores_surplus envW sGoodW [7, 7] l hl
  refine ⟨by rw [h.1, hl], by rw [hl]; simpa using h.2⟩

/-- C4: a `Modify` record whose catalog number — given explicitly or
resolved from its first name — matches no existing entry (including the
case where nothing resolves at all) is rejected without mutating any
existing entry and without adding one: the load state is returned exactly
unchanged, and processing continues with the remaining records instead of
aborting the load. -/
theorem modify_nonexistent_rejected (env : Env) (rec : StcRecord) (st : LoadState)
    (rest : List StcRecord)
    (hdisp : rec.disposition = DataDisposition.Modify)
    (hmiss : (resolveByNumberOrName st rec.number (rec.names.headD [])).bind
        (findWhileLoading st) = none) :
    processRecord env rec st = some st ∧
    load env (rec :: rest) st = load env rest st := by
  obtain ⟨d, isStar, number, names, data⟩ := rec
  simp only at hdisp hmiss
  subst hdisp
  have hproc : processRecord env
      ⟨DataDisposition.Modify, isStar, number, names, data⟩ st = some st := by
    unfold processRecord resolveDisposition
    dsimp only
    rw [hmiss]
    simp
  refine ⟨hproc, ?_⟩
  simp only [load, hproc]

/-- Witness for C4: a `Modify` record naming catalog number 123 against a
state that does not contain it. -/
theorem modify_nonexistent_rejected_witness :
    processRecord envW
      ⟨DataDisposition.Modify, true, some 123, [], emptyStarData⟩ stOneW =
      some stOneW ∧
    load envW [⟨DataDisposition.Modify, true, some 123, [], emptyStarData⟩] stOneW =
      load envW [] stOneW :=
  modify_nonexistent_rejected envW
    ⟨DataDisposition.Modify, true, some 123, [], emptyStarData⟩ stOneW [] rfl
    (by decide)

theorem LoadState.eta (st : LoadState) :
    LoadState.mk st.unsortedStars st.binFileCatalogNumberIndex
      st.stcFileCatalogNumberIndex st.namesDB st.barycenters
      st.nextAutoCatalogNumber st.nStars st.crossIndexes = st := rfl

/-- C3: an `Add` record carrying an explicit catalog number that matches an
existing entry, and whose fields form a valid star (`createStar` succeeds),
replaces that entry in place — the arena slot is overwritten with the
record's new star, no entry is added, the entry count and the stc index are
unchanged.  An `Add` record whose number matches no existing entry creates
a new, distinct additional entry: the star is appended to the arena, the
entry count grows by one, and the new catalog number is indexed at the new
slot. -/
theorem add_replaces_existing_or_creates (env : Env) (rec : StcRecord)
    (st : LoadState) (n : Nat)
    (hdisp : rec.disposition = DataDisposition.Add)
    (hnum : rec.number = some n) :
    (∀ pos star' pending, findWhileLoading st n = some pos →
      createStar env st (starAt st pos) DataDisposition.Add n rec.data
          (rec.isStar = false) = (true, star', pending) →
      ∃ st', processRecord env rec st = some st' ∧
        st'.unsortedStars = st.unsortedStars.set pos star' ∧
        st'.unsortedStars.length = st.unsortedStars.length ∧
        st'.nStars = st.nStars ∧
        st'.stcFileCatalogNumberIndex = st.stcFileCatalogNumberIndex ∧
        st'.barycenters = st.barycenters ++ pending) ∧
    (∀ star' pending, findWhileLoading st n = none →
      createStar env st freshStar DataDisposition.Add n rec.data
          (rec.isStar = false) = (true, star', pending) →
      ∃ st', processRecord env rec st = some st' ∧
        st'.unsortedStars = st.unsortedStars ++ [star'] ∧
        st'.nStars = st.nStars + 1 ∧
        st'.stcFileCatalogNumberIndex =
          (n, st.unsortedStars.length) :: st.stcFileCatalogNumberIndex ∧
        st'.barycenters = st.barycenters ++ pending) := by
  obtain ⟨d, isStar, number, names, data⟩ := rec
  simp only at hdisp hnum
  subst hdisp; subst hnum
  constructor
  · intro pos star' pending hpos hcreate
    unfold processRecord resolveDisposition
    dsimp only
    rw [hpos]
    dsimp only
    rw [LoadState.eta]
    rw [hcreate]
    dsimp only
    refine ⟨_, rfl, ?_⟩
    constructor
    · split <;> rfl
    constructor
    · split <;> simp
    constructor
    · split <;> rfl
    constructor
    · split <;> rfl
    · split <;> rfl
  · intro star' pending hpos hcreate
    unfold processRecord resolveDisposition
    dsimp only
    rw [hpos]
    dsimp only
    rw [LoadState.eta]
    rw [hcreate]
    dsimp only
    refine ⟨_, rfl, ?_⟩
    constructor
    · split <;> rfl
    constructor
    · split <;> rfl
    constructor
    · split <;> rfl
    · split <;> rfl

/-- Witness for C3: replacing catalog number 5 in place and creating a new
entry 7 against a one-star state. -/
theorem add_replaces_existing_or_creates_witness :
    ((processRecord envW ⟨DataDisposition.Add, true, some 5, [], dataFullW⟩
        stOneW).getD stEmpty).unsortedStars =
      stOneW.unsortedStars.set 0 (starFromDataFullW 5) ∧
    ((processRecord envW ⟨DataDisposition.Add, true, some 5, [], dataFullW⟩
        stOneW).getD stEmpty).nStars = stOneW.nStars ∧
    ((processRecord envW ⟨DataDisposition.Add, true, some 7, [], dataFullW⟩
        stOneW).getD stEmpty).unsortedStars =
      stOneW.unsortedStars ++ [starFromDataFullW 7] ∧
    ((processRecord envW ⟨DataDisposition.Add, true, some 7, [], dataFullW⟩
        stOneW).getD stEmpty).nStars = stOneW.nStars + 1 := by
  have h := add_replaces_existing_or_creates envW
    ⟨DataDisposition.Add, true, some 5, [], dataFullW⟩ stOneW 5 rfl rfl
  have h' := add_replaces_existing_or_creates envW
    ⟨DataDisposition.Add, true, some 7, [], dataFullW⟩ stOneW 7 rfl rfl
  obtain ⟨stA, hA, hA1, _, hA3, _, _⟩ :=
    h.1 0 (starFromDataFullW 5) [] (by decide) (by decide)
  obtain ⟨stB, hB, hB1, hB2, _, _⟩ :=
    h'.2 (starFromDataFullW 7) [] (by decide) (by decide)
  rw [hA, hB]
  exact ⟨hA1, hA3, hB1, hB2⟩

theorem applyOrbit_missing_target (st : LoadState) (catalogNumber : Nat)
    (starData : StarData) (details : StarDetails) (custom : CustomStarDetails)
    (orb bc : Nat)
    (horb : custom.orbit = some orb)
    (hbary : orbitBarycenterRef st starData = some (some bc))
    (hbc : findWhileLoading st bc = none) :
    applyOrbit st catalogNumber starData details custom =
      (false, { details with orbit := some orb }, none, [(catalogNumber, bc)]) := by
  unfold applyOrbit
  rw [horb]
  dsimp only
  rw [hbary]
  dsimp only
  rw [hbc]

theorem createOrUpdate_missing_barycenter (env : Env) (st : LoadState) (star : Star)
    (catalogNumber : Nat) (data : StarData) (sp : List Char) (rd : StarDetails)
    (orb bc : Nat)
    (hsp : data.spectralType = some sp)
    (hgd : env.getStarDetails (env.parseSpectral sp) = some rd)
    (horb : env.createOrbit data = some orb)
    (hbary : orbitBarycenterRef st data = some (some bc))
    (hbc : findWhileLoading st bc = none) :
    ∃ star', createOrUpdateStarDetails env st star DataDisposition.Add
        catalogNumber data false = (false, star', none, [(catalogNumber, bc)]) := by
  have hcd : (parseCustomStarDetails env data).hasCustomDetails = true := by
    simp [parseCustomStarDetails, horb]
  unfold createOrUpdateStarDetails
  dsimp only
  rw [hsp]
  dsimp only
  rw [hgd]
  dsimp only
  unfold applyCustomStarDetails
  rw [hcd]
  dsimp only
  rw [applyOrbit_missing_target st catalogNumber data _
    (parseCustomStarDetails env data) orb bc horb hbary hbc]
  dsimp only
  exact ⟨_, rfl⟩

theorem createStar_missing_barycenter (env : Env) (st : LoadState) (star : Star)
    (catalogNumber : Nat) (data : StarData) (sp : List Char) (rd : StarDetails)
    (orb bc : Nat)
    (hsp : data.spectralType = some sp)
    (hgd : env.getStarDetails (env.parseSpectral sp) = some rd)
    (horb : env.createOrbit data = some orb)
    (hbary : orbitBarycenterRef st data = some (some bc))
    (hbc : findWhileLoading st bc = none) :
    ∃ star', createStar env st star DataDisposition.Add catalogNumber data false =
      (false, star', [(catalogNumber, bc)]) := by
  obtain ⟨star', hcu⟩ := createOrUpdate_missing_barycenter env st star catalogNumber
    data sp rd orb bc hsp hgd horb hbary hbc
  unfold createStar
  rw [hcu]
  exact ⟨_, rfl⟩

/-- C10: a textual record that defines an orbit whose `OrbitBarycenter`
reference resolves to a valid catalog number, but whose target entry cannot
be found during loading, is rejected — no entry is committed, the arena,
counters and indexes are untouched — yet the (entry number, barycenter
number) pair was appended to the pending barycenter list before the failure
was detected, so the rejection leaves that stale pending pair behind for
the finish pass. -/
theorem rejected_orbit_leaves_stale_pending (env : Env) (rec : StcRecord)
    (st : LoadState) (n bc : Nat) (sp : List Char) (rd : StarDetails) (orb : Nat)
    (hdisp : rec.disposition = DataDisposition.Add)
    (hnum : rec.number = some n)
    (hnotfound : findWhileLoading st n = none)
    (hstar : rec.isStar = true)
    (hsp : rec.data.spectralType = some sp)
    (hgd : env.getStarDetails (env.parseSpectral sp) = some rd)
    (horb : env.createOrbit rec.data = some orb)
    (hbary : orbitBarycenterRef st rec.data = some (some bc))
    (hbc : findWhileLoading st bc = none) :
    processRecord env rec st =
      some { st with barycenters := st.barycenters ++ [(n, bc)] } := by
  obtain ⟨d, isStar, number, names, data⟩ := rec
  simp only at hdisp hnum hstar hsp horb hbary
  subst hdisp; subst hnum; subst hstar
  obtain ⟨star', hcs⟩ := createStar_missing_barycenter env st freshStar n data sp rd
    orb bc hsp hgd horb hbary hbc
  unfold processRecord resolveDisposition
  dsimp only
  rw [hnotfound]
  dsimp only
  rw [LoadState.eta]
  simp only [show (decide (true = false)) = false from rfl]
  rw [hcs]
  simp

/-- Witness for C10 at a concrete record referencing missing barycenter
60. -/
theorem rejected_orbit_leaves_stale_pending_witness :
    processRecord envOrbW ⟨DataDisposition.Add, true, some 50, [], dataOrbW⟩ stEmpty =
      some { stEmpty with barycenters := stEmpty.barycenters ++ [(50, 60)] } :=
  rejected_orbit_leaves_stale_pending envOrbW
    ⟨DataDisposition.Add, true, some 50, [], dataOrbW⟩ stEmpty 50 60 ['G'] detailsW 1
    rfl rfl (by decide) rfl rfl rfl rfl (by decide) (by decide)

theorem applyOrbit_none (st : LoadState) (catalogNumber : Nat) (starData : StarData)
    (details : StarDetails) (custom : CustomStarDetails)
    (horb : custom.orbit = none) :
    applyOrbit st catalogNumber starData details custom = (true, details, none, []) := by
  unfold applyOrbit
  rw [horb]

theorem applyCustom_no_orbit (env : Env) (st : LoadState) (star : Star)
    (catalogNumber : Nat) (data : StarData) (custom : CustomStarDetails)
    (horb : custom.orbit = none) :
    ∃ dx, applyCustomStarDetails env st star catalogNumber data custom =
      (true, { star with details := dx }, none, []) := by
  unfold applyCustomStarDetails
  cases hcd : custom.hasCustomDetails with
  | false => exact ⟨star.details, rfl⟩
  | true =>
    rw [applyOrbit_none st catalogNumber data
      (customizeDetails env star.details custom) custom horb]
    dsimp only
    cases hrm : custom.rm with
    | none => exact ⟨_, rfl⟩
    | some r => exact ⟨_, rfl⟩

theorem createOrUpdate_no_orbit (env : Env) (st : LoadState) (star : Star)
    (catalogNumber : Nat) (data : StarData) (sp : List Char) (rd : StarDetails)
    (hsp : data.spectralType = some sp)
    (hgd : env.getStarDetails (env.parseSpectral sp) = some rd)
    (horb : env.createOrbit data = none) :
    ∃ dx, createOrUpdateStarDetails env st star DataDisposition.Add
        catalogNumber data false = (true, { star with details := dx }, none, []) := by
  unfold createOrUpdateStarDetails
  dsimp only
  rw [hsp]
  dsimp only
  rw [hgd]
  dsimp only
  obtain ⟨dx, hac⟩ := applyCustom_no_orbit env st
    { star with details :=
        match (parseCustomStarDetails env data).hasCustomDetails with
        | true => rd.clone
        | false => rd }
    catalogNumber data (parseCustomStarDetails env data) horb
  exact ⟨dx, hac⟩

theorem createStar_extinction_eval (env : Env) (st : LoadState) (star0 : Star)
    (n : Nat) (data : StarData) (sp : List Char) (rd : StarDetails) (p : Vec3)
    (e d : ℚ)
    (hsp : data.spectralType = some sp)
    (hgd : env.getStarDetails (env.parseSpectral sp) = some rd)
    (horb : env.createOrbit data = none)
    (hpos : data.position = some p)
    (hext : data.extinction = some e)
    (hdist : env.vecNorm p = d) :
    (∀ a, data.absMag = none → data.appMag = some a → ¬d < 1 / 100000 →
      ∃ star' pending,
        createStar env st star0 DataDisposition.Add n data false =
          (true, star', pending) ∧
        star'.extinction = e / d ∧
        star'.absMag = env.appToAbsMag a d - e) ∧
    (∀ m, data.absMag = some m →
      ∃ star' pending,
        createStar env st star0 DataDisposition.Add n data false =
          (true, star', pending) ∧
        star'.extinction = (if d = 0 then star0.extinction else e / d) ∧
        star'.absMag = m) := by
  obtain ⟨dx, hcu⟩ := createOrUpdate_no_orbit env st star0 n data sp rd hsp hgd horb
  constructor
  · intro a habs happ hd5
    have hd0 : ¬d = 0 := by
      intro h; subst h; exact hd5 (by norm_num)
    unfold createStar
    rw [hcu]
    dsimp only
    rw [hpos]
    dsimp only
    rw [habs]
    dsimp only
    rw [happ]
    dsimp only
    rw [hdist]
    rw [if_neg hd5]
    dsimp only
    rw [hext]
    dsimp only
    rw [hdist]
    rw [if_pos hd0]
    dsimp only
    exact ⟨_, _, rfl, rfl, rfl⟩
  · intro m habs
    unfold createStar
    rw [hcu]
    dsimp only
    rw [hpos]
    dsimp only
    rw [habs]
    dsimp only
    rw [hext]
    dsimp only
    rw [hdist]
    by_cases hd0 : d = 0
    · rw [if_neg (by simp [hd0])]
      dsimp only
      exact ⟨_, _, rfl, by simp [hd0], rfl⟩
    · rw [if_pos hd0]
      dsimp only
      exact ⟨_, _, rfl, by simp [hd0], rfl⟩

/-- Counterexample for C7: with position (2,0,0) — distance 2 under the
Euclidean norm, matched by the witness environment at this point — apparent
magnitude 5 (converted to absolute magnitude 5 by the collaborator) and
extinction value 2, the claim predicts a final absolute magnitude of
5 - 2/2 = 4, but the code subtracts the raw extinction value and produces
5 - 2 = 3; and with the absolute magnitude 5 given directly the claim still
predicts 4, but the code performs no subtraction at all and leaves 5. -/
theorem extinction_claim_counterexample :
    (createStar envW stEmpty freshStar DataDisposition.Add 77 dataExtAppW
      false).2.1.extinction = 2 / 2 ∧
    (createStar envW stEmpty freshStar DataDisposition.Add 77 dataExtAppW
      false).2.1.absMag = 5 - 2 ∧
    ((5 : ℚ) - 2 ≠ 5 - 2 / 2) ∧
    (createStar envW stEmpty freshStar DataDisposition.Add 78 dataExtAbsW
      false).2.1.absMag = 5 ∧
    ((5 : ℚ) ≠ 5 - 2 / 2) := by
  have h := createStar_extinction_eval envW stEmpty freshStar 77 dataExtAppW ['G']
    detailsW ⟨2, 0, 0⟩ 2 2 rfl rfl rfl rfl rfl rfl
  obtain ⟨sA, pA, hA, hAe, hAm⟩ := h.1 5 rfl rfl (by norm_num)
  have h' := createStar_extinction_eval envW stEmpty freshStar 78 dataExtAbsW ['G']
    detailsW ⟨2, 0, 0⟩ 2 2 rfl rfl rfl rfl rfl rfl
  obtain ⟨sB, pB, hB, hBe, hBm⟩ := h'.2 5 rfl
  refine ⟨?_, ?_, by norm_num, ?_, by norm_num⟩
  · rw [hA]; exact hAe
  · rw [hA]; exact hAm
  · rw [hB]; exact hBm

/-- C7 amended: when a textual star record supplies an `Extinction` value
and its position resolves to `p` at distance `d` from the origin, the
stored extinction coefficient becomes the value divided by `d` when `d` is
nonzero, and is left unchanged when `d` is zero (the correction, not the
stored coefficient, is forced to zero); the value subtracted from the
absolute magnitude is the raw extinction value — not scaled by 1/distance —
and the subtraction happens only when the absolute magnitude was derived
from the apparent magnitude rather than given directly. -/
theorem extinction_raw_subtraction (env : Env) (st : LoadState) (star0 : Star)
    (n : Nat) (data : StarData) (sp : List Char) (rd : StarDetails) (p : Vec3)
    (e d : ℚ)
    (hsp : data.spectralType = some sp)
    (hgd : env.getStarDetails (env.parseSpectral sp) = some rd)
    (horb : env.createOrbit data = none)
    (hpos : data.position = some p)
    (hext : data.extinction = some e)
    (hdist : env.vecNorm p = d) :
    (∀ a, data.absMag = none → data.appMag = some a → ¬d < 1 / 100000 →
      ∃ star' pending,
        createStar env st star0 DataDisposition.Add n data false =
          (true, star', pending) ∧
        star'.extinction = e / d ∧
        star'.absMag = env.appToAbsMag a d - e) ∧
    (∀ m, data.absMag = some m →
      ∃ star' pending,
        createStar env st star0 DataDisposition.Add n data false =
          (true, star', pending) ∧
        star'.extinction = (if d = 0 then star0.extinction else e / d) ∧
        star'.absMag = m) :=
  createStar_extinction_eval env st star0 n data sp rd p e d hsp hgd horb hpos
    hext hdist

/-- Witness for the amended C7 theorem at the zero-distance record: the
stored extinction coefficient is left unchanged and no correction is
subtracted. -/
theorem extinction_raw_subtraction_witness :
    (createStar envW stEmpty freshStar DataDisposition.Add 79 dataExtZeroW
      false).2.1.extinction = freshStar.extinction ∧
    (createStar envW stEmpty freshStar DataDisposition.Add 79 dataExtZeroW
      false).2.1.absMag = 5 := by
  have h := extinction_raw_subtraction envW stEmpty freshStar 79 dataExtZeroW ['G']
    detailsW ⟨0, 0, 0⟩ 2 0 rfl rfl rfl rfl rfl rfl
  obtain ⟨sB, pB, hB, hBe, hBm⟩ := h.2 5 rfl
  rw [hB]
  exact ⟨by simpa using hBe, hBm⟩

theorem digitVal_digitChar (d : Nat) (h : d < 10) :
    digitVal (Nat.digitChar d) = d := by
  interval_cases d <;> decide

theorem digitChar_props (d : Nat) (h : d < 10) :
    (Nat.digitChar d).isDigit = true ∧ isSpaceTab (Nat.digitChar d) = false ∧
      (Nat.digitChar d = '-') = False := by
  interval_cases d <;> exact ⟨by decide, by decide, by decide⟩

theorem natDigitCharsAux_mem : ∀ (fuel n : Nat) (c : Char),
    c ∈ natDigitCharsAux fuel n → ∃ d, d < 10 ∧ c = Nat.digitChar d := by
  intro fuel
  induction fuel with
  | zero => intro n c h; simp [natDigitCharsAux] at h
  | succ fuel ih =>
    intro n c h
    cases n with
    | zero => simp [natDigitCharsAux] at h
    | succ m =>
      unfold natDigitCharsAux at h
      rcases List.mem_append.mp h with h1 | h2
      · exact ih _ _ h1
      · simp only [List.mem_singleton] at h2
        exact ⟨(m + 1) % 10, Nat.mod_lt _ (by norm_num), h2⟩

theorem natDigitChars_mem (n : Nat) (c : Char) (h : c ∈ natDigitChars n) :
    ∃ d, d < 10 ∧ c = Nat.digitChar d := by
  unfold natDigitChars at h
  by_cases h0 : n = 0
  · rw [if_pos h0] at h
    simp only [List.mem_singleton] at h
    exact ⟨0, by norm_num, h⟩
  · rw [if_neg h0] at h
    exact natDigitCharsAux_mem n n c h

theorem natDigitChars_ne_nil (n : Nat) : natDigitChars n ≠ [] := by
  unfold natDigitChars
  by_cases h0 : n = 0
  · rw [if_pos h0]; simp
  · rw [if_neg h0]
    cases n with
    | zero => exact absurd rfl h0
    | succ m => unfold natDigitCharsAux; simp

theorem natDigitCharsAux_foldl : ∀ (fuel n acc : Nat), n ≤ fuel →
    (natDigitCharsAux fuel n).foldl (fun a c => a * 10 + digitVal c) acc =
      acc * 10 ^ (natDigitCharsAux fuel n).length + n := by
  intro fuel
  induction fuel with
  | zero =>
    intro n acc h
    have : n = 0 := by omega
    subst this
    simp [natDigitCharsAux]
  | succ fuel ih =>
    intro n acc h
    cases n with
    | zero => simp [natDigitCharsAux]
    | succ m =>
      unfold natDigitCharsAux
      rw [List.foldl_append, List.length_append]
      have hdiv : (m + 1) / 10 ≤ fuel := by
        have := Nat.div_lt_self (Nat.succ_pos m) (by norm_num : 1 < 10)
        omega
      rw [ih ((m + 1) / 10) acc hdiv]
      simp only [List.foldl_cons, List.foldl_nil, List.length_cons, List.length_nil,
        Nat.zero_add]
      rw [digitVal_digitChar _ (Nat.mod_lt _ (by norm_num))]
      have hmod := Nat.div_add_mod (m + 1) 10
      calc (acc * 10 ^ (natDigitCharsAux fuel ((m + 1) / 10)).length + (m + 1) / 10) * 10
            + (m + 1) % 10
          = acc * (10 ^ (natDigitCharsAux fuel ((m + 1) / 10)).length * 10)
            + (10 * ((m + 1) / 10) + (m + 1) % 10) := by ring
        _ = acc * 10 ^ ((natDigitCharsAux fuel ((m + 1) / 10)).length + 1) + (m + 1) := by
            rw [hmod, pow_succ]

theorem natOfDigitChars_natDigitChars (n : Nat) :
    natOfDigitChars (natDigitChars n) = n := by
  unfold natDigitChars natOfDigitChars
  by_cases h0 : n = 0
  · rw [if_pos h0]; subst h0; decide
  · rw [if_neg h0]
    rw [natDigitCharsAux_foldl n n 0 (Nat.le_refl n)]
    simp

theorem startsWithCI_append_self : ∀ (pfx rest : List Char),
    startsWithCI pfx (pfx ++ rest) = true := by
  intro pfx
  induction pfx with
  | nil => intro rest; rfl
  | cons p ps ih =>
    intro rest
    unfold startsWithCI
    simp only [List.cons_append]
    rw [ih rest]
    simp

theorem takeWhile_dropWhile_append (p : Char → Bool) (l rest : List Char)
    (hl : ∀ c ∈ l, p c = true)
    (hrest : ∀ c, rest.head? = some c → p c = false) :
    (l ++ rest).takeWhile p = l ∧ (l ++ rest).dropWhile p = rest := by
  induction l with
  | nil =>
    simp only [List.nil_append]
    cases rest with
    | nil => exact ⟨rfl, rfl⟩
    | cons r rs =>
      have hr := hrest r rfl
      rw [List.takeWhile_cons, List.dropWhile_cons, hr]
      exact ⟨rfl, rfl⟩
  | cons x xs ih =>
    have hx := hl x (by simp)
    obtain ⟨h1, h2⟩ := ih fun c hc => hl c (by simp [hc])
    simp only [List.cons_append, List.takeWhile_cons, List.dropWhile_cons, hx]
    rw [h1, h2]
    exact ⟨rfl, rfl⟩

theorem head_of_digits_append (n : Nat) (rest : List Char) (c : Char)
    (h : (natDigitChars n ++ rest).head? = some c) : c ∈ natDigitChars n := by
  obtain ⟨x, xs, hx⟩ := List.exists_cons_of_ne_nil (natDigitChars_ne_nil n)
  rw [hx] at h ⊢
  simp only [List.cons_append, List.head?_cons, Option.some.injEq] at h
  rw [← h]
  simp

theorem dropWhile_spaceTab_digits (n : Nat) (rest : List Char) :
    (natDigitChars n ++ rest).dropWhile isSpaceTab = natDigitChars n ++ rest := by
  cases hl : natDigitChars n ++ rest with
  | nil => rfl
  | cons x xs =>
    have hx : x ∈ natDigitChars n := by
      apply head_of_digits_append n rest
      rw [hl]; rfl
    obtain ⟨d, hd, rfl⟩ := natDigitChars_mem n _ hx
    rw [List.dropWhile_cons]
    simp [(digitChar_props d hd).2.1]

theorem isEmpty_digits_append (n : Nat) (rest : List Char) :
    (natDigitChars n ++ rest).isEmpty = false := by
  obtain ⟨x, xs, hx⟩ := List.exists_cons_of_ne_nil (natDigitChars_ne_nil n)
  rw [hx]
  rfl

theorem fromCharsU32_digits (t : Nat) (rest : List Char)
    (hrest : ∀ c, rest.head? = some c → c.isDigit = false) :
    fromCharsU32 (natDigitChars t ++ rest) =
      if t < 4294967296 then some (t, rest) else none := by
  obtain ⟨h1, h2⟩ := takeWhile_dropWhile_append Char.isDigit (natDigitChars t) rest
    (fun c hc => by
      obtain ⟨d, hd, rfl⟩ := natDigitChars_mem t c hc
      exact (digitChar_props d hd).1)
    hrest
  unfold fromCharsU32
  rw [h1, h2]
  dsimp only
  rw [show (natDigitChars t).isEmpty = false from by
    obtain ⟨x, xs, hx⟩ := List.exists_cons_of_ne_nil (natDigitChars_ne_nil t)
    rw [hx]; rfl]
  rw [natOfDigitChars_natDigitChars t]
  simp

theorem fromCharsU32_digits_nil (t : Nat) :
    fromCharsU32 (natDigitChars t) =
      if t < 4294967296 then some (t, ([] : List Char)) else none := by
  have h := fromCharsU32_digits t [] (by intro c h; simp at h)
  simpa using h

theorem parseTycho_tycString (t1 t2 t3 : Nat) :
    parseTychoCatalogNumber (tycString t1 t2 t3) =
      if tycValid t1 t2 t3 then some (tycPack t1 t2 t3 % 4294967296) else none := by
  have hpfx : startsWithCI tycTag (tycString t1 t2 t3) = true := by
    unfold tycString
    exact startsWithCI_append_self _ _
  have hdrop : (tycString t1 t2 t3).drop 4 =
      natDigitChars t1 ++ '-' :: (natDigitChars t2 ++ '-' :: natDigitChars t3) := by
    unfold tycString
    rw [List.append_assoc, List.append_assoc, List.cons_append]
    rfl
  have hdash : ∀ (l : List Char) (c : Char), ('-' :: l).head? = some c → c.isDigit = false := by
    intro l c h
    simp only [List.head?_cons, Option.some.injEq] at h
    rw [← h]
    decide
  unfold parseTychoCatalogNumber
  rw [if_pos hpfx]
  dsimp only
  rw [hdrop, dropWhile_spaceTab_digits, isEmpty_digits_append,
    if_neg Bool.false_ne_true]
  rw [fromCharsU32_digits t1 _ (hdash _)]
  by_cases h1l : t1 < 4294967296
  · rw [if_pos h1l]
    dsimp only
    by_cases h1r : t1 < 1 ∨ 9999 < t1
    · rw [if_pos h1r, if_neg (show ¬tycValid t1 t2 t3 from by unfold tycValid; omega)]
    · rw [if_neg h1r]
      rw [if_neg (show ¬('-' ≠ '-') from by simp)]
      rw [fromCharsU32_digits t2 _ (hdash _)]
      by_cases h2l : t2 < 4294967296
      · rw [if_pos h2l]
        dsimp only
        by_cases h2r : t2 < 1 ∨ 99999 < t2
        · rw [if_pos h2r, if_neg (show ¬tycValid t1 t2 t3 from by unfold tycValid; omega)]
        · rw [if_neg h2r]
          rw [if_neg (show ¬('-' ≠ '-') from by simp)]
          rw [fromCharsU32_digits_nil t3]
          by_cases h3l : t3 < 4294967296
          · rw [if_pos h3l]
            dsimp only
            by_cases h3r : 1 ≤ t3 ∧ (t3 ≤ 3 ∨ (t3 = 4 ∧ t1 ≤ 2907))
            · rw [if_pos (show 1 ≤ t3 ∧ (t3 ≤ 3 ∨ (t3 = 4 ∧ t1 ≤ 2907)) ∧
                  (List.dropWhile isSpaceTab ([] : List Char)).isEmpty = true from
                  ⟨h3r.1, h3r.2, rfl⟩)]
              rw [if_pos (show tycValid t1 t2 t3 from
                  ⟨by omega, by omega, by omega, by omega, h3r.1, h3r.2⟩)]
              rfl
            · rw [if_neg (fun hcon => h3r ⟨hcon.1, hcon.2.1⟩),
                if_neg (show ¬tycValid t1 t2 t3 from
                  fun hv => h3r ⟨hv.2.2.2.2.1, hv.2.2.2.2.2⟩)]
          · rw [if_neg h3l]
            dsimp only
            rw [if_neg (show ¬tycValid t1 t2 t3 from by unfold tycValid; omega)]
      · rw [if_neg h2l]
        dsimp only
        rw [if_neg (show ¬tycValid t1 t2 t3 from by unfold tycValid; omega)]
  · rw [if_neg h1l]
    dsimp only
    rw [if_neg (show ¬tycValid t1 t2 t3 from by unfold tycValid; omega)]

/-- Injectivity of the `uint32`-wrapped Tycho packing on the valid part
ranges: the valid packings span an interval narrower than `2^32`, so the
reduction wraps by at most one multiple of `2^32` and distinct valid
triples stay distinct. -/
lemma tycPack_mod_inj (t1 t2 t3 u1 u2 u3 : Nat)
    (ht : tycValid t1 t2 t3) (hu : tycValid u1 u2 u3)
    (h : tycPack t1 t2 t3 % 4294967296 = tycPack u1 u2 u3 % 4294967296) :
    t1 = u1 ∧ t2 = u2 ∧ t3 = u3 := by
  unfold tycValid at ht hu
  unfold tycPack TYC3_MULTIPLIER TYC2_MULTIPLIER at h
  obtain ⟨a1, a2, a3, a4, a5, a6⟩ := ht
  obtain ⟨b1, b2, b3, b4, b5, b6⟩ := hu
  have hv : (t3 * 1000000000 + t2 * 10000 + t1) % 4294967296
        = t3 * 1000000000 + t2 * 10000 + t1
      ∨ (t3 * 1000000000 + t2 * 10000 + t1) % 4294967296 + 4294967296
        = t3 * 1000000000 + t2 * 10000 + t1 := by omega
  have hw : (u3 * 1000000000 + u2 * 10000 + u1) % 4294967296
        = u3 * 1000000000 + u2 * 10000 + u1
      ∨ (u3 * 1000000000 + u2 * 10000 + u1) % 4294967296 + 4294967296
        = u3 * 1000000000 + u2 * 10000 + u1 := by omega
  rcases hv with hv | hv <;> rcases hw with hw | hw <;>
    refine ⟨by omega, by omega, by omega⟩

/-- The display decomposition of `catalogNumberToString` (divide and
modulo by `TYC3_MULTIPLIER` and `TYC2_MULTIPLIER`) reverses the
mathematical packing of valid Tycho parts. -/
lemma catalogNumberToString_tycPack (t1 t2 t3 : Nat)
    (ht : tycValid t1 t2 t3) :
    catalogNumberToString (tycPack t1 t2 t3) = tycString t1 t2 t3 := by
  obtain ⟨h1, h2, h3, h4, h5, h6⟩ := ht
  have hp : tycPack t1 t2 t3 = t3 * 1000000000 + t2 * 10000 + t1 := rfl
  have hbig : ¬ tycPack t1 t2 t3 ≤ MAX_HIPPARCOS_NUMBER := by
    unfold MAX_HIPPARCOS_NUMBER; omega
  unfold catalogNumberToString
  rw [if_neg hbig]
  dsimp only
  have e3 : tycPack t1 t2 t3 / TYC3_MULTIPLIER = t3 := by
    unfold TYC3_MULTIPLIER; omega
  rw [e3]
  have en2 : tycPack t1 t2 t3 - t3 * TYC3_MULTIPLIER = t2 * 10000 + t1 := by
    unfold TYC3_MULTIPLIER; omega
  rw [en2]
  have et2 : (t2 * 10000 + t1) / TYC2_MULTIPLIER = t2 := by
    unfold TYC2_MULTIPLIER; omega
  rw [et2]
  have et1 : t2 * 10000 + t1 - t2 * TYC2_MULTIPLIER = t1 := by
    unfold TYC2_MULTIPLIER; omega
  rw [et1]
  rfl

/-- C5 (amended): parsing `TYC t1-t2-t3` text succeeds exactly on the
valid part ranges (`1 ≤ t1 ≤ 9999`, `1 ≤ t2 ≤ 99999`, and `1 ≤ t3 ≤ 3`
or `t3 = 4 ∧ t1 ≤ 2907`), but in `std::uint32_t` arithmetic it yields
the packing `t3*1000000000 + t2*10000 + t1` reduced modulo `2^32` — not
the unreduced packing the spec states, which overflows for `t3 = 4`
whenever `t2 ≥ 29497` (and at `t2 = 29496` for large enough `t1`).  The
wrapped packing is nevertheless still injective on the valid ranges, and
the divide/modulo display decomposition reverses the stored number
exactly when the packing stayed below `2^32`. -/
theorem tycho_parse_pack_display (t1 t2 t3 u1 u2 u3 : Nat) :
    (parseTychoCatalogNumber (tycString t1 t2 t3) =
        if tycValid t1 t2 t3 then some (tycPack t1 t2 t3 % 4294967296)
        else none)
    ∧ (tycValid t1 t2 t3 → tycValid u1 u2 u3 →
        tycPack t1 t2 t3 % 4294967296 = tycPack u1 u2 u3 % 4294967296 →
        t1 = u1 ∧ t2 = u2 ∧ t3 = u3)
    ∧ (tycValid t1 t2 t3 → tycPack t1 t2 t3 < 4294967296 →
        catalogNumberToString (tycPack t1 t2 t3 % 4294967296) =
          tycString t1 t2 t3) := by
  refine ⟨parseTycho_tycString t1 t2 t3,
    tycPack_mod_inj t1 t2 t3 u1 u2 u3, ?_⟩
  intro ht hlt
  rw [Nat.mod_eq_of_lt hlt]
  exact catalogNumberToString_tycPack t1 t2 t3 ht

/-- C5 counterexample: the valid designation `TYC 2907-99999-4` parses to
the wrapped value `705025611` (`= 4999992907 mod 2^32`), not the spec's
unreduced packing `4999992907`, and displaying the stored number does not
reproduce the input designation. -/
theorem tycho_parse_pack_display_counterexample :
    parseTychoCatalogNumber (tycString 2907 99999 4) = some 705025611
    ∧ 705025611 ≠ 4 * 1000000000 + 99999 * 10000 + 2907
    ∧ catalogNumberToString 705025611 ≠ tycString 2907 99999 4 := by
  refine ⟨?_, by decide, by decide⟩
  rw [parseTycho_tycString, if_pos (by decide)]
  rfl

/-- Witness for C5 at the concrete parts `TYC 5-7-2` (compared with
themselves for the injectivity conjunct). -/
theorem tycho_parse_pack_display_witness :
    (parseTychoCatalogNumber (tycString 5 7 2) =
        if tycValid 5 7 2 then some (tycPack 5 7 2 % 4294967296) else none)
    ∧ (5 = 5 ∧ 7 = 7 ∧ 2 = 2)
    ∧ catalogNumberToString (tycPack 5 7 2 % 4294967296) =
        tycString 5 7 2 := by
  obtain ⟨ha, hb, hc⟩ := tycho_parse_pack_display 5 7 2 5 7 2
  exact ⟨ha, hb (by decide) (by decide) rfl, hc (by decide) (by decide)⟩

end Celestia
